import Mathlib

/-!
Verification of the `alphslabs` backtest engine core
(`backtest_api/components/backtest_engine.py`, `strategy.py`, `indicators.py`).

Shallow embedding conventions:
* Prices, indicator values and capital are modelled as `ℚ` (the Python code
  runs on IEEE floats, every concrete float value is a rational; rounding of
  float arithmetic is abstracted away).
* A possibly-unavailable numeric value (`NaN` in the source) is `Option ℚ`
  with `none` playing the role of `NaN`; the source guards every use of such
  values with `pd.isna`, which maps to matching on the `Option`.
* Timestamps (`Date` column) are modelled as `Nat`; the source only ever
  compares, subtracts and formats them.
* Cosmetic parts of the source are elided and noted where they occur:
  interpolated numbers inside reason strings, the `Interval`,
  `Holding_Days`, `Indicator_Params` echo fields and the
  entry/exit indicator snapshot fields of a trade record (none of the
  engine's decisions read them back).
* All definitions are total and executable; the Python engine never raises
  on the modelled paths, which the embedding reflects by construction.
-/

namespace Backtest

/-- One row of the working dataframe: a candle plus the indicator columns
attached by the annotation phase.  `cols` is an association list
column-name ↦ value, `none` modelling `NaN`; a missing column and a `NaN`
column behave identically in the source (`row.get(col, np.nan)` followed by
`pd.isna`), so both are `none` under `Row.get`. -/
structure Row where
  date : Nat
  openP : ℚ
  high : ℚ
  low : ℚ
  close : ℚ
  cols : List (String × Option ℚ) := []
  deriving Repr, DecidableEq

/-- Kernel-reducible lower-casing (extensionally `String.toLower`, which
is implemented by position-based recursion and does not reduce inside the
kernel). -/
def lowerStr (s : String) : String := ⟨s.data.map Char.toLower⟩

/-- `row.get(col, np.nan)` followed by the source's `pd.isna` guard:
`none` iff the column is missing or holds `NaN`. -/
def Row.get (r : Row) (c : String) : Option ℚ :=
  match r.cols.lookup c with
  | some v => v
  | none => none

/-- DSL operand: a string (price keyword or indicator alias) or a literal
number (`backtest_engine.resolve_dsl_value`). -/
inductive Operand where
  | str (s : String)
  | num (q : ℚ)
  deriving Repr, DecidableEq

/-- DSL condition tree (`backtest_engine.evaluate_dsl_condition`): `all`
(AND group), `any` (OR group) or a comparison with a string operator. -/
inductive Cond where
  | all (children : List Cond)
  | any (children : List Cond)
  | cmp (op : String) (left right : Operand)

/-- `backtest_engine.resolve_dsl_value`: price keywords first (case
insensitive), then the alias → column map, then numeric literals, else
`NaN`.  A numeric operand can never match the string-keyed alias map, so
the literal branch keeps the source's order. -/
def resolve_dsl_value (operand : Operand) (row : Row) (cols : List (String × String)) : Option ℚ :=
  match operand with
  | .str s =>
    let ls := lowerStr s
    if ls = "close" ∨ ls = "price" then some row.close
    else if ls = "open" then some row.openP
    else if ls = "high" then some row.high
    else if ls = "low" then some row.low
    else
      match cols.lookup s with
      | some col => row.get col
      | none => none
  | .num q => some q

/-- Comparison case of `evaluate_dsl_condition` (lines 101-153): the
stop-loss-family operators are skipped first, then both operands are
resolved, `NaN` fails closed, then the operator dispatch; `crossesAbove`
and `crossesBelow` additionally resolve on the previous row and fail closed
when it is absent or unavailable; an unrecognised operator is `false`. -/
def evalCmp (op : String) (l r : Operand) (row : Row) (cols : List (String × String))
    (prev : Option Row) : Bool :=
  if op = "stopLossPct" ∨ op = "takeProfitPct" ∨ op = "trailingStopPct" then false
  else
    match resolve_dsl_value l row cols, resolve_dsl_value r row cols with
    | some lv, some rv =>
      if op = ">" ∨ op = "gt" then decide (lv > rv)
      else if op = "<" ∨ op = "lt" then decide (lv < rv)
      else if op = ">=" ∨ op = "gte" then decide (lv ≥ rv)
      else if op = "<=" ∨ op = "lte" then decide (lv ≤ rv)
      else if op = "==" ∨ op = "equals" ∨ op = "eq" then decide (lv = rv)
      else if op = "crossesAbove" then
        match prev with
        | none => false
        | some prow =>
          match resolve_dsl_value l prow cols, resolve_dsl_value r prow cols with
          | some pl, some pr => decide (pl ≤ pr) && decide (lv > rv)
          | _, _ => false
      else if op = "crossesBelow" then
        match prev with
        | none => false
        | some prow =>
          match resolve_dsl_value l prow cols, resolve_dsl_value r prow cols with
          | some pl, some pr => decide (pl ≥ pr) && decide (lv < rv)
          | _, _ => false
      else false
    | _, _ => false

mutual

/-- `backtest_engine.evaluate_dsl_condition`, recursing over the condition
tree exactly as the source does (AND/OR groups short-circuit). -/
def evaluate_dsl_condition : Cond → Row → List (String × String) → Option Row → Bool
  | .all cs, row, cols, prev => evalAllList cs row cols prev
  | .any cs, row, cols, prev => evalAnyList cs row cols prev
  | .cmp op l r, row, cols, prev => evalCmp op l r row cols prev

/-- `all(...)` over the children of an AND group. -/
def evalAllList : List Cond → Row → List (String × String) → Option Row → Bool
  | [], _, _, _ => true
  | c :: cs, row, cols, prev =>
    evaluate_dsl_condition c row cols prev && evalAllList cs row cols prev

/-- `any(...)` over the children of an OR group. -/
def evalAnyList : List Cond → Row → List (String × String) → Option Row → Bool
  | [], _, _, _ => false
  | c :: cs, row, cols, prev =>
    evaluate_dsl_condition c row cols prev || evalAnyList cs row cols prev

end

/-- Configuration of one DSL indicator (`dsl['indicators'][alias]`): its
`type` string (normalised before dispatch), optional `length` (default 20)
and optional `percentile` (read but then unused by the source's rolling
percentile lambda). -/
structure IndConf where
  itype : String := "ema"
  length : Option Nat := none
  percentile : Option ℚ := none
  deriving Repr, DecidableEq

/-- A saved-strategy DSL object: alias → indicator configs plus optional
entry and exit condition trees. -/
structure Dsl where
  indicators : List (String × IndConf) := []
  entry : Option Cond := none
  exit : Option Cond := none

/-- The keys the source probes in `indicator_params` dictionaries, each
optional; chained lookups such as `params.get('length',
params.get('period', 14))` become chained `Option.getD`. -/
structure Params where
  fast : Option Nat := none
  slow : Option Nat := none
  length : Option Nat := none
  period : Option Nat := none
  top : Option ℚ := none
  bottom : Option ℚ := none
  overbought : Option ℚ := none
  oversold : Option ℚ := none
  upper : Option ℚ := none
  lower : Option ℚ := none
  deriving Repr, DecidableEq

/-- Keyword arguments of `run_backtest` with their source defaults
(`interval` is only echoed into cosmetic output fields and is elided). -/
structure Config where
  initial_capital : ℚ := 10000
  enable_short : Bool := true
  strategy_mode : String := "reversal"
  ema_fast : Nat := 12
  ema_slow : Nat := 26
  indicator_type : String := "ema"
  indicator_params : Option Params := none
  entry_delay : Nat := 1
  exit_delay : Nat := 1
  use_stop_loss : Bool := true
  dsl : Option Dsl := none

/-- `strategy.calculate_support_resistance`: clamp the lookback to the
current index, degenerate to no levels at index 0, otherwise min Low / max
High over the trailing window `[current_idx - lookback, current_idx]`. -/
def calculate_support_resistance (data : List Row) (current_idx : Nat) (lookback : Nat := 50) :
    Option ℚ × Option ℚ :=
  let lb := if current_idx < lookback then current_idx else lookback
  if lb = 0 then (none, none)
  else
    let w := (data.take (current_idx + 1)).drop (current_idx - lb)
    match w with
    | [] => (none, none)
    | r :: rs =>
      (some (rs.foldl (fun m x => min m x.low) r.low),
       some (rs.foldl (fun m x => max m x.high) r.high))

/-- `strategy.calculate_stop_loss`: Long → support when it is below the
entry, else 5% below entry; Short → resistance when above the entry, else
5% above. -/
def calculate_stop_loss (signal_type : String) (entry_price : ℚ)
    (support resistance : Option ℚ) : ℚ :=
  if signal_type = "Long" then
    match support with
    | some s => if s < entry_price then s else entry_price * (95 / 100)
    | none => entry_price * (95 / 100)
  else
    match resistance with
    | some r => if r > entry_price then r else entry_price * (105 / 100)
    | none => entry_price * (105 / 100)

/-- Result triple of the entry-signal checks:
`(has_signal, signal_type, entry_reason)`. -/
abbrev SignalResult := Bool × Option String × Option String

/-- `strategy.check_entry_signal_ema`: EMA crossover on the `EMA{fast}` /
`EMA{slow}` columns, unavailable values coerced to `0.0` exactly as the
source's `float(row.get(col, 0)) if not isna(...) else 0.0`.  The numeric
interpolation inside the reason strings is elided. -/
def check_entry_signal_ema (data_row prev_row : Row) (params : Params) : SignalResult :=
  let fast_period := params.fast.getD 12
  let slow_period := params.slow.getD 26
  let fc := "EMA" ++ toString fast_period
  let sc := "EMA" ++ toString slow_period
  let fcur := (data_row.get fc).getD 0
  let scur := (data_row.get sc).getD 0
  let fprev := (prev_row.get fc).getD 0
  let sprev := (prev_row.get sc).getD 0
  if fprev ≤ sprev ∧ fcur > scur then
    (true, some "Long", some ("Golden Cross: EMA" ++ toString fast_period ++ " crossed above EMA" ++ toString slow_period))
  else if fprev ≥ sprev ∧ fcur < scur then
    (true, some "Short", some ("Death Cross: EMA" ++ toString fast_period ++ " crossed below EMA" ++ toString slow_period))
  else (false, none, none)

/-- `strategy.check_entry_signal_ma`: the same crossover on `MA` columns. -/
def check_entry_signal_ma (data_row prev_row : Row) (params : Params) : SignalResult :=
  let fast_period := params.fast.getD 12
  let slow_period := params.slow.getD 26
  let fc := "MA" ++ toString fast_period
  let sc := "MA" ++ toString slow_period
  let fcur := (data_row.get fc).getD 0
  let scur := (data_row.get sc).getD 0
  let fprev := (prev_row.get fc).getD 0
  let sprev := (prev_row.get sc).getD 0
  if fprev ≤ sprev ∧ fcur > scur then
    (true, some "Long", some ("Golden Cross: MA" ++ toString fast_period ++ " crossed above MA" ++ toString slow_period))
  else if fprev ≥ sprev ∧ fcur < scur then
    (true, some "Short", some ("Death Cross: MA" ++ toString fast_period ++ " crossed below MA" ++ toString slow_period))
  else (false, none, none)

/-- `strategy.check_entry_signal_rsi`: level-based mean-reversion check on
the current bar only; unavailable RSI coerces to the neutral `50.0`. -/
def check_entry_signal_rsi (data_row : Row) (params : Params) : SignalResult :=
  let period := params.length.getD (params.period.getD 14)
  let overbought := params.top.getD (params.overbought.getD 70)
  let oversold := params.bottom.getD (params.oversold.getD 30)
  let rsi := (data_row.get ("RSI" ++ toString period)).getD 50
  if rsi ≤ oversold then
    (true, some "Long", some ("RSI(" ++ toString period ++ ") hit oversold - Buy signal"))
  else if rsi ≥ overbought then
    (true, some "Short", some ("RSI(" ++ toString period ++ ") hit overbought - Sell signal"))
  else (false, none, none)

/-- `strategy.check_entry_signal_cci`: level-based check, unavailable CCI
coerces to `0.0`. -/
def check_entry_signal_cci (data_row : Row) (params : Params) : SignalResult :=
  let period := params.length.getD (params.period.getD 20)
  let overbought := params.top.getD (params.overbought.getD 100)
  let oversold := params.bottom.getD (params.oversold.getD (-100))
  let cci := (data_row.get ("CCI" ++ toString period)).getD 0
  if cci ≤ oversold then
    (true, some "Long", some ("CCI(" ++ toString period ++ ") hit oversold - Buy signal"))
  else if cci ≥ overbought then
    (true, some "Short", some ("CCI(" ++ toString period ++ ") hit overbought - Sell signal"))
  else (false, none, none)

/-- `strategy.check_entry_signal_zscore`: level-based check, unavailable
Z-Score coerces to `0.0`. -/
def check_entry_signal_zscore (data_row : Row) (params : Params) : SignalResult :=
  let period := params.length.getD (params.period.getD 20)
  let upper := params.top.getD (params.upper.getD 2)
  let lower := params.bottom.getD (params.lower.getD (-2))
  let z := (data_row.get ("ZScore" ++ toString period)).getD 0
  if z ≤ lower then
    (true, some "Long", some ("Z-Score(" ++ toString period ++ ") hit oversold - Buy signal"))
  else if z ≥ upper then
    (true, some "Short", some ("Z-Score(" ++ toString period ++ ") hit overbought - Sell signal"))
  else (false, none, none)

/-- `strategy.check_entry_signal_indicator`: `None` previous row means no
signal, then dispatch on the indicator type, unknown types giving no
signal. -/
def check_entry_signal_indicator (data_row : Row) (prev_row : Option Row)
    (indicator_type : String) (indicator_params : Params) : SignalResult :=
  match prev_row with
  | none => (false, none, none)
  | some prev =>
    if indicator_type = "ema" then check_entry_signal_ema data_row prev indicator_params
    else if indicator_type = "ma" then check_entry_signal_ma data_row prev indicator_params
    else if indicator_type = "rsi" then check_entry_signal_rsi data_row indicator_params
    else if indicator_type = "cci" then check_entry_signal_cci data_row indicator_params
    else if indicator_type = "zscore" then check_entry_signal_zscore data_row indicator_params
    else (false, none, none)

/-- An open position as the engine's `position` dict: the cosmetic
entry-time indicator snapshot keys (`entry_ema_fast`, ...) and
`entry_interval` / `indicator_type` echoes are elided. -/
structure Position where
  entry_date : Nat
  entry_price : ℚ
  shares : ℚ
  position_type : String
  stop_loss : Option ℚ
  entry_reason : String
  deriving Repr, DecidableEq

/-- Result quadruple of the exit checks:
`(should_exit, exit_reason, exit_price, stop_loss_hit)`. -/
structure ExitDecision where
  should_exit : Bool
  reason : Option String
  price : ℚ
  stop_hit : Bool
  deriving Repr, DecidableEq

/-- Opposite-signal part of `strategy.check_exit_condition_indicator`
(both rows must be present; exit Long on a Short signal and vice versa). -/
def exitSignalCheck (position : Position) (current_price : ℚ)
    (current_row prev_row : Option Row) (indicator_type : String)
    (indicator_params : Params) : ExitDecision :=
  match current_row, prev_row with
  | some cur, some prev =>
    let s := check_entry_signal_indicator cur (some prev) indicator_type indicator_params
    if s.1 then
      if position.position_type = "long" ∧ s.2.1 = some "Short" then
        ⟨true, some ("Exit Signal: " ++ (s.2.2.getD "None")), current_price, false⟩
      else if position.position_type = "short" ∧ s.2.1 = some "Long" then
        ⟨true, some ("Exit Signal: " ++ (s.2.2.getD "None")), current_price, false⟩
      else ⟨false, none, current_price, false⟩
    else ⟨false, none, current_price, false⟩
  | _, _ => ⟨false, none, current_price, false⟩

/-- `strategy.check_exit_condition_indicator`: the stop-loss check runs
first (Long exits when Low ≤ stop, Short when High ≥ stop) and returns the
*current close* as exit price; otherwise an opposite-direction signal from
`check_entry_signal_indicator` exits at the current close.  Price
interpolation inside reason strings is elided. -/
def check_exit_condition_indicator (position : Position)
    (current_price current_high current_low : ℚ) (current_row prev_row : Option Row)
    (indicator_type : String) (indicator_params : Params) : ExitDecision :=
  match position.stop_loss with
  | some sl =>
    if position.position_type = "long" then
      if current_low ≤ sl then
        ⟨true, some "Stop Loss Hit - Low touched stop loss", current_price, true⟩
      else
        exitSignalCheck position current_price current_row prev_row indicator_type indicator_params
    else
      if current_high ≥ sl then
        ⟨true, some "Stop Loss Hit - High touched stop loss", current_price, true⟩
      else
        exitSignalCheck position current_price current_row prev_row indicator_type indicator_params
  | none =>
    exitSignalCheck position current_price current_row prev_row indicator_type indicator_params

/-- The DSL entry condition, `dsl.get('entry')`. -/
def entryCond (cfg : Config) : Option Cond := cfg.dsl.bind (·.entry)

/-- The DSL exit condition, `dsl.get('exit')`. -/
def exitCond (cfg : Config) : Option Cond := cfg.dsl.bind (·.exit)

/-- `use_dsl` (line 196): a DSL object with a non-empty indicator map and
at least one of entry/exit. -/
def useDsl (cfg : Config) : Bool :=
  match cfg.dsl with
  | some d => !d.indicators.isEmpty && ((entryCond cfg).isSome || (exitCond cfg).isSome)
  | none => false

/-- The DSL signal branch is taken only when, additionally, an entry
condition exists (line 355 `if use_dsl and dsl.get('entry')`). -/
def dslSignalMode (cfg : Config) : Bool :=
  useDsl cfg && (entryCond cfg).isSome

/-- Indicator-type normalisation of the DSL annotation loop (line 222):
lower-case, `-`/space to `_`, dots removed. -/
def normType (s : String) : String :=
  ⟨s.data.filterMap (fun c =>
    let lc := Char.toLower c
    if lc = '-' then some '_'
    else if lc = '.' then none
    else if lc = ' ' then some '_'
    else some lc)⟩

/-- Column name the DSL annotation gives to one alias, `none` when the
normalised type is not recognised (the source then attaches no column and
the alias stays unresolved). -/
def dslColName (aliasName : String) (conf : IndConf) : Option String :=
  let t := normType conf.itype
  let len := conf.length.getD 20
  if t = "ema" then some ("DSL_EMA_" ++ aliasName ++ "_" ++ toString len)
  else if t = "ma" then some ("DSL_MA_" ++ aliasName ++ "_" ++ toString len)
  else if t = "dema" then some ("DSL_DEMA_" ++ aliasName ++ "_" ++ toString len)
  else if t = "rsi" then some ("DSL_RSI_" ++ aliasName ++ "_" ++ toString len)
  else if t = "cci" then some ("DSL_CCI_" ++ aliasName ++ "_" ++ toString len)
  else if t = "zscore" then some ("DSL_ZScore_" ++ aliasName ++ "_" ++ toString len)
  else if t = "roll_std" then some ("DSL_RollStd_" ++ aliasName ++ "_" ++ toString len)
  else if t = "roll_median" then some ("DSL_RollMedian_" ++ aliasName ++ "_" ++ toString len)
  else if t = "roll_percentile" then some ("DSL_RollPct_" ++ aliasName ++ "_" ++ toString len)
  else none

/-- The `dsl_indicator_cols` alias → column map built by the annotation
loop (lines 212-267); empty when the DSL is not used. -/
def dslColsOf (cfg : Config) : List (String × String) :=
  if useDsl cfg then
    match cfg.dsl with
    | some d => d.indicators.filterMap (fun ac => (dslColName ac.1 ac.2).map (fun c => (ac.1, c)))
    | none => []
  else []

/-- The effective indicator type after lines 286-320: the five known types
pass through, anything else falls back to `'ema'`. -/
def effType (cfg : Config) : String :=
  if cfg.indicator_type = "ema" ∨ cfg.indicator_type = "ma" ∨ cfg.indicator_type = "rsi" ∨
      cfg.indicator_type = "cci" ∨ cfg.indicator_type = "zscore" then
    cfg.indicator_type
  else "ema"

/-- The effective `indicator_params` after the defaulting block (lines
269-284) and the unknown-type fallback (lines 315-318).  For `ema`/`ma`
with no params the defaults are the (swapped-if-needed) `ema_fast` /
`ema_slow` arguments; an unknown type discards any provided params and uses
the raw, unswapped arguments. -/
def effParams (cfg : Config) : Params :=
  if cfg.indicator_type = "ema" ∨ cfg.indicator_type = "ma" then
    match cfg.indicator_params with
    | some p => p
    | none =>
      let fs := if cfg.ema_fast ≥ cfg.ema_slow then (cfg.ema_slow, cfg.ema_fast)
                else (cfg.ema_fast, cfg.ema_slow)
      { fast := some fs.1, slow := some fs.2 }
  else if cfg.indicator_type = "rsi" then
    match cfg.indicator_params with
    | some p => p
    | none => { length := some 14, top := some 70, bottom := some 30 }
  else if cfg.indicator_type = "cci" then
    match cfg.indicator_params with
    | some p => p
    | none => { length := some 20, top := some 100, bottom := some (-100) }
  else if cfg.indicator_type = "zscore" then
    match cfg.indicator_params with
    | some p => p
    | none => { length := some 20, top := some 2, bottom := some (-2) }
  else { fast := some cfg.ema_fast, slow := some cfg.ema_slow }

/-- A completed round-trip trade.  Elided cosmetic fields of the source
dict: `Holding_Days`, `Interval`, `Indicator_Type`, `Indicator_Params`,
`EMA_Fast_Period`/`EMA_Slow_Period`, the four entry/exit indicator
snapshots and `Strategy_Mode`; reason strings keep their identifying text
but drop interpolated numbers. -/
structure Trade where
  entry_date : Nat
  exit_date : Nat
  position_type : String
  entry_price : ℚ
  exit_price : ℚ
  stop_loss : Option ℚ
  stop_loss_hit : Bool
  shares : ℚ
  entry_value : ℚ
  exit_value : ℚ
  pnl : ℚ
  pnl_pct : ℚ
  entry_reason : String
  exit_reason : String
  deriving Repr, DecidableEq

/-- A scheduled delayed entry (`pending_entry` dict).  The stored
`signal_row` is dead in the source (assigned, never read) and elided. -/
structure PendingEntry where
  execute_at : Nat
  ptype : String
  reason : Option String
  deriving Repr, DecidableEq

/-- A scheduled delayed exit (`pending_exit` dict). -/
structure PendingExit where
  execute_at : Nat
  reason : Option String
  stop_loss_hit : Bool
  deriving Repr, DecidableEq

/-- The engine's per-run mutable state (locals of `run_backtest`'s loop).
Holding the single `position : Option Position` mirrors the source's one
`position` variable: the engine is single-position by construction. -/
structure EngineState where
  trades : List Trade
  capital : ℚ
  position : Option Position
  just_exited_on_crossover : Bool
  pending_entry : Option PendingEntry
  pending_exit : Option PendingExit
  prev_dsl_entry_met : Bool
  prev_dsl_exit_met : Bool
  deriving Repr, DecidableEq

/-- Loop state before the first bar (lines 322-334). -/
def initState (cfg : Config) : EngineState :=
  { trades := [], capital := cfg.initial_capital, position := none,
    just_exited_on_crossover := false, pending_entry := none, pending_exit := none,
    prev_dsl_entry_met := false, prev_dsl_exit_met := false }

/-- Raw signal of one bar: crossover triple plus the two DSL transition
flags (both `False` outside the DSL signal branch, lines 352-353). -/
structure SignalOut where
  has_crossover : Bool
  crossover_type : Option String
  crossover_reason : Option String
  dsl_entry_transition : Bool
  dsl_exit_transition : Bool
  deriving Repr, DecidableEq

/-- Mapping of DSL transitions to entry signals (lines 367-387): an entry
transition wins and gives Long, an exit transition alone gives Short. -/
def dslTransSignal (et xt : Bool) : SignalOut :=
  if et || xt then
    if et then ⟨true, some "Long", some "DSL Entry Transition", et, xt⟩
    else ⟨true, some "Short", some "DSL Exit Transition", et, xt⟩
  else ⟨false, none, none, et, xt⟩

/-- Signal detection for one bar (lines 351-396) together with the new
values of the two previous-state flags: in the DSL signal branch the
conditions are evaluated against the current/previous rows and the flags
are refreshed; otherwise `check_entry_signal_indicator` runs and the flags
are untouched. -/
def computeSignal (cfg : Config) (prev current : Row) (pem pxm : Bool) :
    SignalOut × Bool × Bool :=
  if dslSignalMode cfg then
    let cols := dslColsOf cfg
    let em := match entryCond cfg with
      | some c => evaluate_dsl_condition c current cols (some prev)
      | none => false
    let xm := match exitCond cfg with
      | some c => evaluate_dsl_condition c current cols (some prev)
      | none => false
    (dslTransSignal (em && !pem) (xm && !pxm), em, xm)
  else
    let s := check_entry_signal_indicator current (some prev) (effType cfg) (effParams cfg)
    (⟨s.1, s.2.1, s.2.2, false, false⟩, pem, pxm)

/-- The DSL-mode exit decision (lines 461-489): the stop-loss check runs
first — note the source's truthiness test `position.get('stop_loss')`,
which also rejects a stop level of `0.0` — and exits *at the stop level*;
otherwise an opposite DSL transition exits at the current close. -/
def dslExitDecision (cfg : Config) (pos : Position) (current : Row) (sig : SignalOut) :
    ExitDecision :=
  let slTruthy := match pos.stop_loss with
    | some s => decide (s ≠ 0)
    | none => false
  let stop_hit := cfg.use_stop_loss && slTruthy &&
    (if pos.position_type = "long" then decide (current.low ≤ pos.stop_loss.getD 0)
     else decide (current.high ≥ pos.stop_loss.getD 0))
  if stop_hit then ⟨true, some "Stop Loss Hit", pos.stop_loss.getD 0, true⟩
  else if pos.position_type = "long" && sig.dsl_exit_transition then
    ⟨true, some "DSL Exit Transition", current.close, false⟩
  else if pos.position_type = "short" && sig.dsl_entry_transition then
    ⟨true, some "DSL Entry Transition", current.close, false⟩
  else ⟨false, none, current.close, false⟩

/-- Python's `f"{x}"` rendering of an optional reason string. -/
def optRender (r : Option String) : String := r.getD "None"

/-- The trade record built at position close (lines 415-445 / 508-538):
long P&L against the running capital (which equals the capital at entry,
since capital only changes at close), short P&L as entry value minus exit
value. -/
def mkTrade (current : Row) (exit_price : ℚ) (exit_reason : String)
    (stop_loss_hit : Bool) (pos : Position) (capital : ℚ) : Trade :=
  let exit_value := pos.shares * exit_price
  let pnl := if pos.position_type = "long" then exit_value - capital
             else pos.shares * pos.entry_price - exit_value
  { entry_date := pos.entry_date, exit_date := current.date,
    position_type := pos.position_type.capitalize,
    entry_price := pos.entry_price, exit_price := exit_price,
    stop_loss := pos.stop_loss, stop_loss_hit := stop_loss_hit,
    shares := pos.shares, entry_value := capital, exit_value := exit_value,
    pnl := pnl, pnl_pct := pnl / capital * 100,
    entry_reason := pos.entry_reason, exit_reason := exit_reason }

/-- Close the open position into a `Trade` (the common body of lines
404-456 and 498-548): trade appended, capital updated, the
`just_exited_on_crossover` flag refreshed, position and pending exit
cleared. -/
def closeTrade (current : Row) (exit_price : ℚ) (exit_reason : String)
    (stop_loss_hit : Bool) (has_crossover : Bool) (pos : Position)
    (st : EngineState) : EngineState :=
  let exit_value := pos.shares * exit_price
  let pnl := if pos.position_type = "long" then exit_value - st.capital
             else pos.shares * pos.entry_price - exit_value
  { st with trades := st.trades ++ [mkTrade current exit_price exit_reason stop_loss_hit pos st.capital],
            capital := if pos.position_type = "long" then exit_value else st.capital + pnl,
            just_exited_on_crossover := !stop_loss_hit && has_crossover,
            position := none, pending_exit := none }

/-- Open a position at the current close (common body of lines 559-598 and
634-680): shares = capital / price, optional support/resistance stop loss,
position type lower-cased. -/
def openPosition (cfg : Config) (data : List Row) (i : Nat) (current : Row)
    (ctype : String) (reason : String) (st : EngineState) : EngineState :=
  let entry_price := current.close
  let shares := st.capital / entry_price
  let stop_loss := if cfg.use_stop_loss then
      let sr := calculate_support_resistance data i 50
      some (calculate_stop_loss ctype entry_price sr.1 sr.2)
    else none
  { st with
      position := some { entry_date := current.date, entry_price := entry_price,
                         shares := shares, position_type := lowerStr ctype,
                         stop_loss := stop_loss, entry_reason := reason },
      pending_entry := none }

/-- Exit processing of one bar (lines 398-556): a due pending exit closes
at the current close with its recorded reason ("(delayed …)" suffixed);
otherwise, with a position and no pending exit, the exit decision runs
(DSL or indicator form) and either closes now — always immediately for a
stop-loss hit — or schedules a pending exit for `i + exit_delay - 1`. -/
def exitPhase (cfg : Config) (i : Nat) (prev current : Row) (sig : SignalOut)
    (st : EngineState) : EngineState :=
  match st.pending_exit, st.position with
  | some pe, some pos =>
    if pe.execute_at ≤ i then
      closeTrade current current.close (optRender pe.reason ++ " (delayed)")
        pe.stop_loss_hit sig.has_crossover pos st
    else st
  | none, some pos =>
    let dec := if useDsl cfg && ((entryCond cfg).isSome || (exitCond cfg).isSome) then
        dslExitDecision cfg pos current sig
      else
        check_exit_condition_indicator pos current.close current.high current.low
          (some current) (some prev) (effType cfg) (effParams cfg)
    if dec.should_exit then
      if cfg.exit_delay ≤ 1 || dec.stop_hit then
        closeTrade current dec.price ((dec.reason).getD "N/A") dec.stop_hit
          sig.has_crossover pos st
      else
        { st with pending_exit := some { execute_at := i + cfg.exit_delay - 1,
                                         reason := dec.reason,
                                         stop_loss_hit := dec.stop_hit } }
    else st
  | _, none => st

/-- Pending-entry execution (lines 558-598): a due pending entry fills at
the current close when no position is open. -/
def pendingEntryPhase (cfg : Config) (data : List Row) (i : Nat) (current : Row)
    (st : EngineState) : EngineState :=
  match st.pending_entry, st.position with
  | some pe, none =>
    if pe.execute_at ≤ i then
      openPosition cfg data i current pe.ptype (optRender pe.reason ++ " (delayed)") st
    else st
  | _, _ => st

/-- Strategy-mode entry gate with the global short veto (lines 602-629):
`reversal` always enters, `wait_for_next` only when the
`just_exited_on_crossover` flag is clear, `long_only`/`short_only` match
the direction, unknown modes never enter; a Short signal is vetoed when
shorting is disabled. -/
def entryGate (cfg : Config) (just_exited : Bool) (ctype : String) : Bool :=
  let gate :=
    if cfg.strategy_mode = "reversal" then true
    else if cfg.strategy_mode = "wait_for_next" then !just_exited
    else if cfg.strategy_mode = "long_only" then ctype = "Long"
    else if cfg.strategy_mode = "short_only" then ctype = "Short"
    else false
  gate && !(ctype = "Short" && !cfg.enable_short)

/-- Entry-signal processing (lines 600-689): strategy-mode gate, global
short veto, then an immediate fill for `entry_delay ≤ 1` or a pending
entry scheduled for `i + entry_delay - 1`. -/
def entryPhase (cfg : Config) (data : List Row) (i : Nat) (current : Row)
    (sig : SignalOut) (st : EngineState) : EngineState :=
  match st.position, st.pending_entry, sig.has_crossover, sig.crossover_type with
  | none, none, true, some ctype =>
    let should_enter := entryGate cfg st.just_exited_on_crossover ctype
    if should_enter then
      if cfg.entry_delay ≤ 1 then
        openPosition cfg data i current ctype (optRender sig.crossover_reason) st
      else
        { st with pending_entry := some { execute_at := i + cfg.entry_delay - 1,
                                          ptype := ctype,
                                          reason := sig.crossover_reason } }
    else st
  | _, _, _, _ => st

/-- One iteration of the bar loop (lines 342-692), in the source's fixed
order: signal detection, exit processing, pending-entry execution, entry
processing, and finally the `just_exited_on_crossover` reset on
signal-free bars. -/
def processBar (cfg : Config) (data : List Row) (i : Nat) (st : EngineState) : EngineState :=
  match data.get? i, data.get? (i - 1) with
  | some current, some prev =>
    let s := computeSignal cfg prev current st.prev_dsl_entry_met st.prev_dsl_exit_met
    let sig := s.1
    let st1 := { st with prev_dsl_entry_met := s.2.1, prev_dsl_exit_met := s.2.2 }
    let st2 := exitPhase cfg i prev current sig st1
    let st3 := pendingEntryPhase cfg data i current st2
    let st4 := entryPhase cfg data i current sig st3
    if sig.has_crossover then st4 else { st4 with just_exited_on_crossover := false }
  | _, _ => st

/-- State after processing bars `1, …, m` (the python loop is
`for i in range(1, len(data))`). -/
def runUpTo (cfg : Config) (data : List Row) (m : Nat) : EngineState :=
  (List.range' 1 m).foldl (fun st i => processBar cfg data i st) (initState cfg)

/-- Full loop: bars `1, …, len(data) - 1`. -/
def runLoop (cfg : Config) (data : List Row) : EngineState :=
  runUpTo cfg data (data.length - 1)

/-- Arithmetic mean of a window (pandas `.mean()`); windows handed to it
are never empty. -/
def listMean (xs : List ℚ) : ℚ := xs.sum / xs.length

/-- Minimum of a window (0 for the empty list, which never occurs). -/
def minList (xs : List ℚ) : ℚ :=
  match xs with
  | [] => 0
  | x :: r => r.foldl min x

/-- Maximum of a window (0 for the empty list, which never occurs). -/
def maxList (xs : List ℚ) : ℚ :=
  match xs with
  | [] => 0
  | x :: r => r.foldl max x

/-- Pandas `rolling(window=p).f()` on a series with possible `NaN`
entries: defined at index `i` exactly when `p ≥ 1`, the window
`[i-p+1, i]` is full, and every entry in it is available. -/
def rollingApply (f : List ℚ → ℚ) (p : Nat) (xs : List (Option ℚ)) : List (Option ℚ) :=
  (List.range xs.length).map (fun i =>
    if 1 ≤ p ∧ p ≤ i + 1 then
      let w := (xs.take (i + 1)).drop (i + 1 - p)
      if w.all (·.isSome) then some (f (w.filterMap id)) else none
    else none)

/-- `indicators.calculate_ema`: pandas `ewm(span=period, adjust=False)`,
i.e. `EMA[0] = Close[0]`, `EMA[i] = α·Close[i] + (1-α)·EMA[i-1]` with
`α = 2/(period+1)`; defined from the first bar on. -/
def calculate_ema (closes : List ℚ) (period : Nat) : List ℚ :=
  match closes with
  | [] => []
  | c :: cs =>
    List.scanl (fun e x => x * (2 / ((period : ℚ) + 1)) + e * (1 - 2 / ((period : ℚ) + 1))) c cs

/-- `indicators.calculate_ma`: rolling mean of the closes. -/
def calculate_ma (closes : List ℚ) (period : Nat) : List (Option ℚ) :=
  rollingApply listMean period (closes.map some)

/-- `indicators.calculate_dema`: `2·EMA - EMA(EMA)`. -/
def calculate_dema (closes : List ℚ) (period : Nat) : List ℚ :=
  let e1 := calculate_ema closes period
  List.zipWith (fun a b => 2 * a - b) e1 (calculate_ema e1 period)

/-- `Close.diff()`: `NaN` at index 0, then successive differences. -/
def diffSeries (closes : List ℚ) : List (Option ℚ) :=
  match closes with
  | [] => []
  | c :: cs => none :: List.zipWith (fun a b => some (b - a)) (c :: cs) cs

/-- `indicators.calculate_rsi`: simple rolling means of gains and losses
(not Wilder smoothing), `RSI = 100 - 100/(1+RS)`.  Float semantics of the
degenerate cases are kept: `avg_loss = 0 < avg_gain` gives `RS = +inf`
hence RSI `100`; `0/0` is `NaN`, i.e. `none`. -/
def calculate_rsi (closes : List ℚ) (period : Nat) : List (Option ℚ) :=
  let d := diffSeries closes
  let gain := rollingApply listMean period (d.map (Option.map (fun x => if x > 0 then x else 0)))
  let loss := rollingApply listMean period (d.map (Option.map (fun x => if x < 0 then -x else 0)))
  List.zipWith (fun g l =>
    match g, l with
    | some gv, some lv =>
      if lv = 0 then (if gv = 0 then none else some 100)
      else some (100 - 100 / (1 + gv / lv))
    | _, _ => none) gain loss

/-- `indicators.calculate_cci`: typical price, its rolling mean and mean
absolute deviation, `CCI = (tp - sma) / (0.015·mad)`.  A zero mean
deviation forces `tp = sma`, so the source's float `0/0 = NaN` becomes
`none`. -/
def calculate_cci (d : List Row) (period : Nat) : List (Option ℚ) :=
  let tps := d.map (fun r => (r.high + r.low + r.close) / 3)
  let sma := rollingApply listMean period (tps.map some)
  let mad := rollingApply (fun w => listMean (w.map (fun x => |x - listMean w|))) period (tps.map some)
  List.zipWith (fun ts m =>
    match ts.2, m with
    | some sv, some mv => if mv = 0 then none else some ((ts.1 - sv) / ((3 / 200) * mv))
    | _, _ => none) (tps.zip sma) mad

/-- `indicators.calculate_zscore` computes `(close - rolling mean) /
rolling std`; the sample standard deviation involves a square root with no
exact rational value, so this embedding marks the whole column unavailable.
No claim depends on Z-Score values, and every loop-level theorem in this
file quantifies over arbitrary column data, which covers the real runs. -/
def calculate_zscore (closes : List ℚ) (_period : Nat) : List (Option ℚ) :=
  closes.map (fun _ => none)

/-- `indicators.calculate_roll_std` (rolling standard deviation): marked
unavailable for the same square-root reason as `calculate_zscore`. -/
def calculate_roll_std (closes : List ℚ) (_period : Nat) : List (Option ℚ) :=
  closes.map (fun _ => none)

/-- Median of a window as pandas computes it: middle element for odd
length, mean of the two middle elements for even length. -/
def medianQ (w : List ℚ) : ℚ :=
  let s := w.mergeSort (fun a b => decide (a ≤ b))
  let n := s.length
  if n % 2 = 1 then s.getD (n / 2) 0
  else (s.getD (n / 2 - 1) 0 + s.getD (n / 2) 0) / 2

/-- `indicators.calculate_roll_median`: rolling median of the closes. -/
def calculate_roll_median (closes : List ℚ) (period : Nat) : List (Option ℚ) :=
  rollingApply medianQ period (closes.map some)

/-- `indicators.calculate_roll_percentile`: position of the last value of
the window between the window min and max, scaled to 0-100, degenerate to
50 on a flat window.  (The `percentile` argument of the source is unused
by its own lambda.) -/
def calculate_roll_percentile (closes : List ℚ) (period : Nat) : List (Option ℚ) :=
  rollingApply (fun w =>
    let mn := minList w
    let mx := maxList w
    if mx ≠ mn then ((w.getLast?).getD 0 - mn) / (mx - mn) * 100 else 50) period (closes.map some)

/-- Attach one computed column to every row (`data[col] = series`);
prepending pairs with first-match lookup gives dict overwrite semantics. -/
def addColumn (data : List Row) (name : String) (vals : List (Option ℚ)) : List Row :=
  List.zipWith (fun r v => { r with cols := (name, v) :: r.cols }) data vals

/-- One step of the DSL annotation loop (lines 219-267): dispatch on the
normalised indicator type and attach the column named by `dslColName`;
unrecognised types attach nothing. -/
def annotateDslOne (d : List Row) (aliasName : String) (conf : IndConf) : List Row :=
  let closes := d.map (·.close)
  let t := normType conf.itype
  let len := conf.length.getD 20
  match dslColName aliasName conf with
  | none => d
  | some col =>
    let vals :=
      if t = "ema" then (calculate_ema closes len).map some
      else if t = "ma" then calculate_ma closes len
      else if t = "dema" then (calculate_dema closes len).map some
      else if t = "rsi" then calculate_rsi closes len
      else if t = "cci" then calculate_cci d len
      else if t = "zscore" then calculate_zscore closes len
      else if t = "roll_std" then calculate_roll_std closes len
      else if t = "roll_median" then calculate_roll_median closes len
      else calculate_roll_percentile closes len
    addColumn d col vals

/-- The whole DSL annotation phase, run only under `use_dsl`. -/
def annotateDsl (cfg : Config) (d : List Row) : List Row :=
  if useDsl cfg then
    match cfg.dsl with
    | some ds => ds.indicators.foldl (fun acc ac => annotateDslOne acc ac.1 ac.2) d
    | none => d
  else d

/-- The named-indicator annotation (lines 286-320): EMA/MA attach the two
crossover columns with fast/slow swapped into order; the oscillators
attach one column; an unknown type falls back to EMA columns built from
the *unswapped* `ema_fast` / `ema_slow` arguments, exactly as the source's
fallback branch does. -/
def annotateIndicator (cfg : Config) (d : List Row) : List Row :=
  let closes := d.map (·.close)
  let p := effParams cfg
  if cfg.indicator_type = "ema" then
    let f0 := p.fast.getD cfg.ema_fast
    let s0 := p.slow.getD cfg.ema_slow
    let fs := if f0 ≥ s0 then (s0, f0) else (f0, s0)
    addColumn (addColumn d ("EMA" ++ toString fs.1) ((calculate_ema closes fs.1).map some))
      ("EMA" ++ toString fs.2) ((calculate_ema closes fs.2).map some)
  else if cfg.indicator_type = "ma" then
    let f0 := p.fast.getD cfg.ema_fast
    let s0 := p.slow.getD cfg.ema_slow
    let fs := if f0 ≥ s0 then (s0, f0) else (f0, s0)
    addColumn (addColumn d ("MA" ++ toString fs.1) (calculate_ma closes fs.1))
      ("MA" ++ toString fs.2) (calculate_ma closes fs.2)
  else if cfg.indicator_type = "rsi" then
    let per := p.length.getD (p.period.getD 14)
    addColumn d ("RSI" ++ toString per) (calculate_rsi closes per)
  else if cfg.indicator_type = "cci" then
    let per := p.length.getD (p.period.getD 20)
    addColumn d ("CCI" ++ toString per) (calculate_cci d per)
  else if cfg.indicator_type = "zscore" then
    let per := p.length.getD (p.period.getD 20)
    addColumn d ("ZScore" ++ toString per) (calculate_zscore closes per)
  else
    addColumn (addColumn d ("EMA" ++ toString cfg.ema_fast) ((calculate_ema closes cfg.ema_fast).map some))
      ("EMA" ++ toString cfg.ema_slow) ((calculate_ema closes cfg.ema_slow).map some)

/-- Both annotation phases in source order. -/
def annotateData (cfg : Config) (d : List Row) : List Row :=
  annotateIndicator cfg (annotateDsl cfg d)

/-- The performance dict built for a non-empty candle series (lines
728-756). -/
structure Perf where
  initial_capital : ℚ
  final_capital : ℚ
  total_return : ℚ
  total_return_pct : ℚ
  total_trades : Nat
  winning_trades : Nat
  losing_trades : Nat
  win_rate : ℚ
  deriving Repr, DecidableEq

/-- The open-position report emitted when a position is still live at the
last bar (lines 694-726); the cosmetic EMA echo fields are elided. -/
structure OpenPos where
  entry_date : Nat
  position_type : String
  entry_price : ℚ
  current_price : ℚ
  stop_loss : Option ℚ
  shares : ℚ
  unrealized_pnl : ℚ
  unrealized_pnl_pct : ℚ
  entry_reason : String
  deriving Repr, DecidableEq

/-- The run result triple `(trades, performance, open_position)`.  The
performance component is `none` exactly when the source returns the empty
dict `{}` (the empty-input early return); a non-empty series always yields
`some` dict. -/
abbrev RunResult := List Trade × Option Perf × Option OpenPos

/-- End-of-run processing (lines 694-756): a live position becomes an
unrealized `OpenPos` against the final close — never a forced trade — and
the trade list is reduced to the performance summary. -/
def finalize (cfg : Config) (data : List Row) (st : EngineState) : RunResult :=
  let open_position : Option OpenPos :=
    match st.position, data.getLast? with
    | some p, some lastRow =>
      let final_price := lastRow.close
      let exit_value := p.shares * final_price
      let unrealized := if p.position_type = "long" then exit_value - st.capital
                        else p.shares * p.entry_price - exit_value
      some { entry_date := p.entry_date, position_type := p.position_type.capitalize,
             entry_price := p.entry_price, current_price := final_price,
             stop_loss := p.stop_loss, shares := p.shares,
             unrealized_pnl := unrealized,
             unrealized_pnl_pct := if st.capital > 0 then unrealized / st.capital * 100 else 0,
             entry_reason := p.entry_reason }
    | _, _ => none
  let performance : Perf :=
    if st.trades.isEmpty then
      { initial_capital := cfg.initial_capital, final_capital := st.capital,
        total_return := 0, total_return_pct := 0, total_trades := 0,
        winning_trades := 0, losing_trades := 0, win_rate := 0 }
    else
      let total := st.trades.length
      let wins := (st.trades.filter (fun t => t.pnl > 0)).length
      { initial_capital := cfg.initial_capital, final_capital := st.capital,
        total_return := (st.trades.map (·.pnl)).sum,
        total_return_pct := (st.capital - cfg.initial_capital) / cfg.initial_capital * 100,
        total_trades := total, winning_trades := wins,
        losing_trades := (st.trades.filter (fun t => t.pnl < 0)).length,
        win_rate := if 0 < total then (wins : ℚ) / total * 100 else 0 }
  (st.trades, some performance, open_position)

/-- `backtest_engine.run_backtest`: empty input returns `([], {}, None)`
immediately; otherwise annotate, run the bar loop, and finalize. -/
def run_backtest (cfg : Config) (data : List Row) : RunResult :=
  if data.isEmpty then ([], none, none)
  else
    let d := annotateData cfg data
    finalize cfg d (runLoop cfg d)

/-! ### Derived notions used by the theorem statements -/

/-- Strictly increasing timestamps along the series (the spec's well-formed
candle order). -/
def DatesMono (d : List Row) : Prop :=
  List.Chain' (· < ·) (d.map (·.date))

/-- Value of the DSL entry condition at bar `i ≥ 1` of the annotated frame
(the evaluation the loop performs at that bar); `false` when the condition
or a row is absent or `i = 0`. -/
def entryMetAt (cfg : Config) (data : List Row) (i : Nat) : Bool :=
  match entryCond cfg, data.get? i, data.get? (i - 1) with
  | some c, some cur, some prv =>
    1 ≤ i && evaluate_dsl_condition c cur (dslColsOf cfg) (some prv)
  | _, _, _ => false

/-- Value of the DSL exit condition at bar `i ≥ 1`, as `entryMetAt`. -/
def exitMetAt (cfg : Config) (data : List Row) (i : Nat) : Bool :=
  match exitCond cfg, data.get? i, data.get? (i - 1) with
  | some c, some cur, some prv =>
    1 ≤ i && evaluate_dsl_condition c cur (dslColsOf cfg) (some prv)
  | _, _, _ => false

/-- The `prev_dsl_entry_met` flag after the loop has processed bars
`1, …, m`: seeded `false`, refreshed each bar in the DSL signal branch. -/
def canonEM (cfg : Config) (data : List Row) (m : Nat) : Bool :=
  dslSignalMode cfg && entryMetAt cfg data m

/-- The `prev_dsl_exit_met` flag after bars `1, …, m`. -/
def canonXM (cfg : Config) (data : List Row) (m : Nat) : Bool :=
  dslSignalMode cfg && exitMetAt cfg data m

/-- The signal the loop detects at bar `i` of the annotated frame,
expressed as a function of the rows alone (the previous-state flags are
replaced by their canonical values). -/
def signalAt (cfg : Config) (data : List Row) (i : Nat) : SignalOut :=
  match data.get? i, data.get? (i - 1) with
  | some cur, some prv =>
    (computeSignal cfg prv cur (canonEM cfg data (i - 1)) (canonXM cfg data (i - 1))).1
  | _, _ => ⟨false, none, none, false, false⟩

/-- The entry gate as evaluated while the run is still flat (the
`just_exited_on_crossover` flag is still `false`). -/
def gatePassFlat (cfg : Config) (ctype : String) : Bool :=
  entryGate cfg false ctype

/-- Whether bar `i` fires a signal that passes the flat entry gate. -/
def entryFireAt (cfg : Config) (data : List Row) (i : Nat) : Bool :=
  (signalAt cfg data i).has_crossover &&
    (match (signalAt cfg data i).crossover_type with
     | some c => gatePassFlat cfg c
     | none => false)

/-- Loop state while no signal has ever fired: everything initial except
the canonically-evolving DSL flags. -/
def flatState (cfg : Config) (data : List Row) (m : Nat) : EngineState :=
  { initState cfg with prev_dsl_entry_met := canonEM cfg data m,
                       prev_dsl_exit_met := canonXM cfg data m }

/-- Loop state while a scheduled delayed entry is waiting: flat except for
the pending-entry record. -/
def pendState (cfg : Config) (data : List Row) (m : Nat) (e : Nat) (d : String)
    (reason : Option String) : EngineState :=
  { flatState cfg data m with
    pending_entry := some { execute_at := e, ptype := d, reason := reason } }

/-- The exit reason the engine reports for a stop-loss exit: the DSL
branch's plain string, or the indicator branch's side-specific one. -/
def stopReasonStr (dslMode : Bool) (ptype : String) : String :=
  if dslMode then "Stop Loss Hit"
  else if ptype = "long" then "Stop Loss Hit - Low touched stop loss"
  else "Stop Loss Hit - High touched stop loss"

/-- A performance summary whose numeric fields are all zero — what claim
C2 asserts the empty-input run returns. -/
def zeroPerf : Perf :=
  { initial_capital := 0, final_capital := 0, total_return := 0, total_return_pct := 0,
    total_trades := 0, winning_trades := 0, losing_trades := 0, win_rate := 0 }

/-- Loop invariant for the chronological claims: every emitted trade
entered at some bar `j` and exited at a later bar `k`, both already
processed; an open position entered at a processed bar no earlier than
every recorded exit; consecutive trades do not overlap. -/
structure LoopInv (data : List Row) (b : Nat) (st : EngineState) : Prop where
  trades_bars : ∀ t ∈ st.trades, ∃ j k rj rk, 1 ≤ j ∧ j < k ∧ k < b ∧
    data.get? j = some rj ∧ data.get? k = some rk ∧
    t.entry_date = rj.date ∧ t.exit_date = rk.date
  pos_bar : ∀ p, st.position = some p → ∃ j rj, 1 ≤ j ∧ j < b ∧
    data.get? j = some rj ∧ p.entry_date = rj.date ∧
    ∀ t ∈ st.trades, t.exit_date ≤ p.entry_date
  chain : List.Chain' (fun a b => a.exit_date ≤ b.entry_date) st.trades

/-- Invariant for runs with the stop loss disabled: no recorded or live
stop-loss data anywhere in the state. -/
structure CleanInv (st : EngineState) : Prop where
  trades_clean : ∀ t ∈ st.trades, t.stop_loss = none ∧ t.stop_loss_hit = false
  pos_clean : ∀ p, st.position = some p → p.stop_loss = none
  pending_clean : ∀ pe, st.pending_exit = some pe → pe.stop_loss_hit = false

/-! ### Concrete scenarios used by counterexamples and witnesses -/

/-- EMA(1/2) crossover run with the stop loss enabled. -/
def cfgA : Config := { indicator_params := some { fast := some 1, slow := some 2 } }

/-- Three candles: a Golden Cross at bar 1 (entry at close 110, stop at
the window low 90) and an intrabar stop breach at bar 2 (low 80,
close 95). -/
def rowsA : List Row :=
  [ { date := 0, openP := 100, high := 101, low := 90, close := 100 },
    { date := 1, openP := 100, high := 111, low := 105, close := 110 },
    { date := 2, openP := 110, high := 110, low := 80, close := 95 } ]

/-- The same EMA(1/2) run with the stop loss disabled. -/
def cfgB : Config :=
  { indicator_params := some { fast := some 1, slow := some 2 }, use_stop_loss := false }

/-- Three candles: Golden Cross at bar 1 (entry 100), Death Cross exit at
bar 2 (close 80), leaving a re-entered Short open. -/
def rowsB : List Row :=
  [ { date := 0, openP := 50, high := 51, low := 49, close := 50 },
    { date := 1, openP := 50, high := 101, low := 50, close := 100 },
    { date := 2, openP := 100, high := 100, low := 79, close := 80 } ]

/-- The unique trade `run_backtest cfgB rowsB` emits. -/
def tradeB : Trade :=
  { entry_date := 1, exit_date := 2, position_type := "Long",
    entry_price := 100, exit_price := 80, stop_loss := none, stop_loss_hit := false,
    shares := 100, entry_value := 10000, exit_value := 8000, pnl := -2000, pnl_pct := -20,
    entry_reason := "Golden Cross: EMA1 crossed above EMA2",
    exit_reason := "Exit Signal: Death Cross: EMA1 crossed below EMA2" }

/-- A flat series: no crossover ever fires under `cfgA`. -/
def rowsFlat : List Row :=
  [ { date := 0, openP := 100, high := 100, low := 100, close := 100 },
    { date := 1, openP := 100, high := 100, low := 100, close := 100 },
    { date := 2, openP := 100, high := 100, low := 100, close := 100 } ]

/-- Four candles with a single Golden Cross at bar 1 and no later signal
against the open Long, used for the delay-shift witness. -/
def rowsDelay : List Row :=
  [ { date := 0, openP := 50, high := 51, low := 49, close := 50 },
    { date := 1, openP := 50, high := 101, low := 50, close := 100 },
    { date := 2, openP := 100, high := 103, low := 95, close := 102 },
    { date := 3, openP := 102, high := 105, low := 100, close := 104 } ]

/-- DSL strategy whose entry condition can never hold and whose exit
condition is `close > 50`. -/
def dslShort : Dsl :=
  { indicators := [("e", { itype := "ema", length := some 2 })],
    entry := some (Cond.cmp "gt" (Operand.str "e") (Operand.num 1000000)),
    exit := some (Cond.cmp "gt" (Operand.str "close") (Operand.num 50)) }

/-- Configuration running `dslShort`. -/
def cfgDsl : Config := { dsl := some dslShort }

/-- Candles for the DSL scenario: the exit condition turns true at bar 1
(close 60 > 50) after being false at seed time. -/
def rowsDsl : List Row :=
  [ { date := 0, openP := 40, high := 41, low := 39, close := 40 },
    { date := 1, openP := 40, high := 61, low := 40, close := 60 },
    { date := 2, openP := 60, high := 62, low := 58, close := 59 } ]

/-- An open Long position with stop 90, as produced by bar 1 of
`run_backtest cfgA rowsA`, for the bar-level stop-exit witnesses. -/
def posW : Position :=
  { entry_date := 1, entry_price := 110, shares := 1000 / 11, position_type := "long",
    stop_loss := some 90, entry_reason := "Golden Cross: EMA1 crossed above EMA2" }

/-- Engine state holding `posW` before bar 2. -/
def stW : EngineState :=
  { trades := [], capital := 10000, position := some posW,
    just_exited_on_crossover := false, pending_entry := none, pending_exit := none,
    prev_dsl_entry_met := false, prev_dsl_exit_met := false }

/-! ## Theorems -/

theorem evaluate_cmp_def (op : String) (l r : Operand) (row : Row)
    (cols : List (String × String)) (prev : Option Row) :
    evaluate_dsl_condition (Cond.cmp op l r) row cols prev = evalCmp op l r row cols prev := by
  simp [evaluate_dsl_condition]

/-- C6: `crossesAbove` is true iff the pair was ordered `prev_left ≤
prev_right` and is now `left > right`; `crossesBelow` is the mirror; both
are false when the previous bar is absent or a previous operand value is
unavailable. -/
theorem c6_crosses_semantics (l r : Operand) (row prow : Row)
    (cols : List (String × String)) (lv rv pl pr : ℚ)
    (hl : resolve_dsl_value l row cols = some lv)
    (hr : resolve_dsl_value r row cols = some rv)
    (hpl : resolve_dsl_value l prow cols = some pl)
    (hpr : resolve_dsl_value r prow cols = some pr) :
    (evaluate_dsl_condition (Cond.cmp "crossesAbove" l r) row cols (some prow) = true
        ↔ (pl ≤ pr ∧ lv > rv)) ∧
    (evaluate_dsl_condition (Cond.cmp "crossesBelow" l r) row cols (some prow) = true
        ↔ (pl ≥ pr ∧ lv < rv)) ∧
    evaluate_dsl_condition (Cond.cmp "crossesAbove" l r) row cols none = false ∧
    evaluate_dsl_condition (Cond.cmp "crossesBelow" l r) row cols none = false ∧
    (∀ prow' : Row,
      (resolve_dsl_value l prow' cols = none ∨ resolve_dsl_value r prow' cols = none) →
      evaluate_dsl_condition (Cond.cmp "crossesAbove" l r) row cols (some prow') = false ∧
      evaluate_dsl_condition (Cond.cmp "crossesBelow" l r) row cols (some prow') = false) := by
  refine ⟨?_, ?_, ?_, ?_, ?_⟩
  · simp [evaluate_cmp_def, evalCmp, hl, hr, hpl, hpr]
  · simp [evaluate_cmp_def, evalCmp, hl, hr, hpl, hpr]
  · simp [evaluate_cmp_def, evalCmp, hl, hr]
  · simp [evaluate_cmp_def, evalCmp, hl, hr]
  · intro prow' h
    rcases h with h | h
    · cases hpr' : resolve_dsl_value r prow' cols <;>
        simp [evaluate_cmp_def, evalCmp, hl, hr, h, hpr']
    · cases hpl' : resolve_dsl_value l prow' cols <;>
        simp [evaluate_cmp_def, evalCmp, hl, hr, h, hpl']

/-- Witness for C6 at concrete inputs: `close` crosses above the alias
column `e` between two concrete rows, and `crossesBelow` is false there. -/
theorem c6_crosses_semantics_witness :
    evaluate_dsl_condition (Cond.cmp "crossesAbove" (Operand.str "close") (Operand.str "e"))
      { date := 1, openP := 5, high := 5, low := 5, close := 5, cols := [("C", some 3)] }
      [("e", "C")]
      (some { date := 0, openP := 1, high := 1, low := 1, close := 1, cols := [("C", some 2)] }) = true := by
  have h := c6_crosses_semantics (Operand.str "close") (Operand.str "e")
    { date := 1, openP := 5, high := 5, low := 5, close := 5, cols := [("C", some 3)] }
    { date := 0, openP := 1, high := 1, low := 1, close := 1, cols := [("C", some 2)] }
    [("e", "C")] 5 3 1 2 (by decide) (by decide) (by decide) (by decide)
  exact h.1.mpr (by norm_num)

/-- C7: DSL comparison evaluation fails closed — an unavailable operand,
or an operator outside the comparison set, yields `false`.  Evaluation as
a whole is a total function of the condition tree (it is a terminating
structural recursion), so it can never raise. -/
theorem c7_fail_closed (op : String) (l r : Operand) (row : Row)
    (cols : List (String × String)) (prev : Option Row) :
    ((resolve_dsl_value l row cols = none ∨ resolve_dsl_value r row cols = none) →
      evaluate_dsl_condition (Cond.cmp op l r) row cols prev = false) ∧
    (op ∉ ([">", "gt", "<", "lt", ">=", "gte", "<=", "lte", "==", "equals", "eq",
            "crossesAbove", "crossesBelow"] : List String) →
      evaluate_dsl_condition (Cond.cmp op l r) row cols prev = false) := by
  constructor
  · intro h
    by_cases hstop : (op = "stopLossPct" ∨ op = "takeProfitPct" ∨ op = "trailingStopPct")
    · simp [evaluate_cmp_def, evalCmp, hstop]
    · rcases h with h | h
      · cases hr : resolve_dsl_value r row cols <;>
          simp [evaluate_cmp_def, evalCmp, hstop, h, hr]
      · cases hl : resolve_dsl_value l row cols <;>
          simp [evaluate_cmp_def, evalCmp, hstop, h, hl]
  · intro hop
    simp only [List.mem_cons, List.not_mem_nil, or_false] at hop
    push_neg at hop
    obtain ⟨h1, h2, h3, h4, h5, h6, h7, h8, h9, h10, h11, h12, h13⟩ := hop
    by_cases hstop : (op = "stopLossPct" ∨ op = "takeProfitPct" ∨ op = "trailingStopPct")
    · simp [evaluate_cmp_def, evalCmp, hstop]
    · cases hl : resolve_dsl_value l row cols <;>
        cases hr : resolve_dsl_value r row cols <;>
        simp [evaluate_cmp_def, evalCmp, hstop, hl, hr,
          h1, h2, h3, h4, h5, h6, h7, h8, h9, h10, h11, h12, h13]

/-- Witness for C7: a comparison against an unknown alias and a comparison
with a made-up operator both evaluate to `false` on a concrete row. -/
theorem c7_fail_closed_witness :
    evaluate_dsl_condition (Cond.cmp "gt" (Operand.str "ghost") (Operand.num 2))
      { date := 0, openP := 1, high := 1, low := 1, close := 1 } [] none = false ∧
    evaluate_dsl_condition (Cond.cmp "frobnicate" (Operand.num 1) (Operand.num 2))
      { date := 0, openP := 1, high := 1, low := 1, close := 1 } [] none = false := by
  constructor
  · exact (c7_fail_closed "gt" (Operand.str "ghost") (Operand.num 2)
      { date := 0, openP := 1, high := 1, low := 1, close := 1 } [] none).1 (Or.inl (by decide))
  · exact (c7_fail_closed "frobnicate" (Operand.num 1) (Operand.num 2)
      { date := 0, openP := 1, high := 1, low := 1, close := 1 } [] none).2 (by decide)

/-- C2 (corrected): the empty candle series returns immediately with no
trades, *no* performance summary at all (the source's literal `return [],
{}, None` — an empty dict, modelled `none` — rather than a dict of
zero-valued fields), and no open position; the early return precedes all
other processing, so no error is possible. -/
theorem c2_empty_input_amended (cfg : Config) : run_backtest cfg [] = ([], none, none) := rfl

/-- Counterexample to C2 as stated: at the concrete empty input, the
performance component is the empty dict (`none`), not a summary whose
numeric fields are all zero. -/
theorem c2_counterexample :
    (run_backtest {} []).2.1 = none ∧ (run_backtest {} []).2.1 ≠ some zeroPerf := by
  exact ⟨rfl, by simp [run_backtest]⟩

theorem runUpTo_succ (cfg : Config) (data : List Row) (m : Nat) :
    runUpTo cfg data (m + 1) = processBar cfg data (m + 1) (runUpTo cfg data m) := by
  unfold runUpTo
  rw [List.range'_concat, List.foldl_append]
  simp [Nat.add_comm]

theorem exitPhase_pending_entry (cfg : Config) (i : Nat) (prev current : Row)
    (sig : SignalOut) (st : EngineState) :
    (exitPhase cfg i prev current sig st).pending_entry = st.pending_entry := by
  rcases hpe : st.pending_exit with _ | pe <;> rcases hpos : st.position with _ | pos <;>
    simp [exitPhase, hpe, hpos, closeTrade] <;> split_ifs <;> rfl

theorem exitPhase_flags (cfg : Config) (i : Nat) (prev current : Row)
    (sig : SignalOut) (st : EngineState) :
    (exitPhase cfg i prev current sig st).prev_dsl_entry_met = st.prev_dsl_entry_met ∧
    (exitPhase cfg i prev current sig st).prev_dsl_exit_met = st.prev_dsl_exit_met := by
  rcases hpe : st.pending_exit with _ | pe <;> rcases hpos : st.position with _ | pos <;>
    simp [exitPhase, hpe, hpos, closeTrade] <;> split_ifs <;> exact ⟨rfl, rfl⟩

theorem pendingEntryPhase_core (cfg : Config) (data : List Row) (i : Nat) (current : Row)
    (st : EngineState) :
    (pendingEntryPhase cfg data i current st).trades = st.trades ∧
    (pendingEntryPhase cfg data i current st).capital = st.capital ∧
    (pendingEntryPhase cfg data i current st).just_exited_on_crossover = st.just_exited_on_crossover ∧
    (pendingEntryPhase cfg data i current st).pending_exit = st.pending_exit ∧
    (pendingEntryPhase cfg data i current st).prev_dsl_entry_met = st.prev_dsl_entry_met ∧
    (pendingEntryPhase cfg data i current st).prev_dsl_exit_met = st.prev_dsl_exit_met := by
  rcases hpe : st.pending_entry with _ | pe <;> rcases hpos : st.position with _ | pos <;>
    simp [pendingEntryPhase, hpe, hpos, openPosition] <;> split_ifs <;>
      exact ⟨rfl, rfl, rfl, rfl, rfl, rfl⟩

theorem entryPhase_core (cfg : Config) (data : List Row) (i : Nat) (current : Row)
    (sig : SignalOut) (st : EngineState) :
    (entryPhase cfg data i current sig st).trades = st.trades ∧
    (entryPhase cfg data i current sig st).capital = st.capital ∧
    (entryPhase cfg data i current sig st).just_exited_on_crossover = st.just_exited_on_crossover ∧
    (entryPhase cfg data i current sig st).pending_exit = st.pending_exit ∧
    (entryPhase cfg data i current sig st).prev_dsl_entry_met = st.prev_dsl_entry_met ∧
    (entryPhase cfg data i current sig st).prev_dsl_exit_met = st.prev_dsl_exit_met := by
  rcases hpos : st.position with _ | pos <;> rcases hpe : st.pending_entry with _ | pe <;>
    rcases hhc : sig.has_crossover with _ | _ <;>
    rcases hct : sig.crossover_type with _ | ct <;>
    simp [entryPhase, hpos, hpe, hhc, hct, openPosition] <;> split_ifs <;>
      exact ⟨rfl, rfl, rfl, rfl, rfl, rfl⟩

theorem useDsl_entry_or_exit (cfg : Config) (h : useDsl cfg = true) :
    ((entryCond cfg).isSome || (exitCond cfg).isSome) = true := by
  unfold useDsl at h
  rcases hd : cfg.dsl with _ | d
  · rw [hd] at h; exact absurd h (by simp)
  · rw [hd] at h; exact (Bool.and_eq_true _ _ |>.mp h).2

/-- Reduction of the exit phase to `closeTrade` when the decision closes
immediately. -/
theorem exitPhase_close (cfg : Config) (i : Nat) (prev current : Row) (sig : SignalOut)
    (st : EngineState) (pos : Position) (X : ℚ) (R : String)
    (hpos : st.position = some pos) (hpe : st.pending_exit = none)
    (hdec : (if useDsl cfg && ((entryCond cfg).isSome || (exitCond cfg).isSome) then
        dslExitDecision cfg pos current sig
      else
        check_exit_condition_indicator pos current.close current.high current.low
          (some current) (some prev) (effType cfg) (effParams cfg)) =
      ⟨true, some R, X, true⟩) :
    exitPhase cfg i prev current sig st =
      closeTrade current X R true sig.has_crossover pos st := by
  simp only [exitPhase, hpe, hpos, hdec]
  simp

/-- The trades after a bar are the trades after its exit phase. -/
theorem processBar_trades (cfg : Config) (data : List Row) (i : Nat) (st : EngineState)
    (current prev : Row)
    (hcur : data.get? i = some current) (hprev : data.get? (i - 1) = some prev) :
    (processBar cfg data i st).trades =
      (exitPhase cfg i prev current
        (computeSignal cfg prev current st.prev_dsl_entry_met st.prev_dsl_exit_met).1
        { st with
          prev_dsl_entry_met := (computeSignal cfg prev current st.prev_dsl_entry_met st.prev_dsl_exit_met).2.1,
          prev_dsl_exit_met := (computeSignal cfg prev current st.prev_dsl_entry_met st.prev_dsl_exit_met).2.2 }).trades := by
  simp only [processBar, hcur, hprev]
  split <;>
    simp only [(entryPhase_core cfg data i current _ _).1,
      (pendingEntryPhase_core cfg data i current _).1]

/-- Shared helper: with an open position carrying a stop level, no pending
exit, and an intrabar breach, the bar closes the position immediately into
a trade flagged `Stop_Loss_Hit`, priced at the stop level in DSL mode and
at the bar's close in named-indicator mode, whatever the configured
`exit_delay`. -/
theorem stop_exit_bar (cfg : Config) (data : List Row) (i : Nat) (st : EngineState)
    (current prev : Row) (pos : Position) (s : ℚ)
    (hcur : data.get? i = some current) (hprev : data.get? (i - 1) = some prev)
    (hpos : st.position = some pos) (hpe : st.pending_exit = none)
    (hsl : pos.stop_loss = some s)
    (hbr : if pos.position_type = "long" then current.low ≤ s else s ≤ current.high)
    (hdsl : useDsl cfg = true → cfg.use_stop_loss = true ∧ s ≠ 0) :
    (processBar cfg data i st).trades = st.trades ++
      [mkTrade current (if useDsl cfg then s else current.close)
        (stopReasonStr (useDsl cfg) pos.position_type) true pos st.capital] := by
  have hdec : (if useDsl cfg && ((entryCond cfg).isSome || (exitCond cfg).isSome) then
      dslExitDecision cfg pos current
        (computeSignal cfg prev current st.prev_dsl_entry_met st.prev_dsl_exit_met).1
    else
      check_exit_condition_indicator pos current.close current.high current.low
        (some current) (some prev) (effType cfg) (effParams cfg)) =
    ⟨true, some (stopReasonStr (useDsl cfg) pos.position_type),
      (if useDsl cfg then s else current.close), true⟩ := by
    cases hud : useDsl cfg
    · simp only [Bool.false_and, Bool.false_eq_true, if_false]
      by_cases hlp : pos.position_type = "long"
      · have hbr' : current.low ≤ s := by simpa [hlp] using hbr
        simp [check_exit_condition_indicator, hsl, hlp, hbr', stopReasonStr]
      · have hbr' : s ≤ current.high := by simpa [hlp] using hbr
        simp [check_exit_condition_indicator, hsl, hlp, hbr', stopReasonStr]
    · obtain ⟨husl, hs0⟩ := hdsl hud
      rw [useDsl_entry_or_exit cfg hud]
      simp only [Bool.true_and, if_true]
      unfold dslExitDecision
      by_cases hlp : pos.position_type = "long"
      · have hbr' : current.low ≤ s := by simpa [hlp] using hbr
        simp [husl, hsl, hlp, hbr', hs0, stopReasonStr]
      · have hbr' : s ≤ current.high := by simpa [hlp] using hbr
        simp [husl, hsl, hlp, hbr', hs0, stopReasonStr]
  rw [processBar_trades cfg data i st current prev hcur hprev]
  have hcl := exitPhase_close cfg i prev current
    (computeSignal cfg prev current st.prev_dsl_entry_met st.prev_dsl_exit_met).1
    { st with
      prev_dsl_entry_met := (computeSignal cfg prev current st.prev_dsl_entry_met st.prev_dsl_exit_met).2.1,
      prev_dsl_exit_met := (computeSignal cfg prev current st.prev_dsl_entry_met st.prev_dsl_exit_met).2.2 }
    pos _ _ hpos hpe hdec
  rw [hcl]
  rfl

/-- C1 (corrected/amended): with a stop loss carried by the open position,
no pending exit scheduled, and an intrabar breach (Long: Low ≤ stop,
Short: High ≥ stop), the engine closes the position on that bar
immediately, whatever the configured `exit_delay`, with
`Stop_Loss_Hit = true`; the `Exit_Price` is the stop level in DSL mode but
the bar's *close* in named-indicator mode (where
`check_exit_condition_indicator` returns `current_price`).  In DSL mode
the source's truthiness test additionally requires `use_stop_loss` and a
non-zero stop level. -/
theorem c1_stop_exit_amended (cfg : Config) (data : List Row) (i : Nat) (st : EngineState)
    (current prev : Row) (pos : Position) (s : ℚ)
    (hcur : data.get? i = some current) (hprev : data.get? (i - 1) = some prev)
    (hpos : st.position = some pos) (hpe : st.pending_exit = none)
    (hsl : pos.stop_loss = some s)
    (hbr : if pos.position_type = "long" then current.low ≤ s else s ≤ current.high)
    (hdsl : useDsl cfg = true → cfg.use_stop_loss = true ∧ s ≠ 0) :
    ∃ t, (processBar cfg data i st).trades = st.trades ++ [t] ∧
      t.stop_loss_hit = true ∧ t.stop_loss = some s ∧
      t.entry_date = pos.entry_date ∧ t.exit_date = current.date ∧
      t.exit_price = (if useDsl cfg then s else current.close) := by
  refine ⟨_, stop_exit_bar cfg data i st current prev pos s hcur hprev hpos hpe hsl hbr hdsl,
    rfl, ?_, rfl, rfl, rfl⟩
  simpa [mkTrade] using hsl

/-- Witness for C1's amended statement: bar 2 of the annotated `rowsA`
frame against the open Long `posW` (stop 90, bar low 80) emits an
immediate stop trade priced at the bar close 95. -/
theorem c1_stop_exit_amended_witness :
    ∃ t, (processBar cfgA (annotateData cfgA rowsA) 2 stW).trades = stW.trades ++ [t] ∧
      t.stop_loss_hit = true ∧ t.stop_loss = some 90 ∧
      t.entry_date = posW.entry_date ∧ t.exit_date = 2 ∧
      t.exit_price = (if useDsl cfgA then 90 else 95) := by
  have h := c1_stop_exit_amended cfgA (annotateData cfgA rowsA) 2 stW
    { date := 2, openP := 110, high := 110, low := 80, close := 95,
      cols := [("EMA2", some (890 / 9)), ("EMA1", some 95)] }
    { date := 1, openP := 100, high := 111, low := 105, close := 110,
      cols := [("EMA2", some (320 / 3)), ("EMA1", some 110)] }
    posW 90 (by with_unfolding_all rfl) (by with_unfolding_all rfl) rfl rfl rfl
    (of_decide_eq_true (by with_unfolding_all rfl))
    (of_decide_eq_true (by with_unfolding_all rfl))
  exact h

/-- Counterexample to C1 as stated: in the concrete named-indicator run
`run_backtest cfgA rowsA`, the single emitted trade is a stop-loss exit
(`Stop_Loss_Hit = true`, stop level 90) whose `Exit_Price` is the bar
close 95, not the stop level. -/
theorem c1_counterexample :
    ((run_backtest cfgA rowsA).1.map fun t => (t.stop_loss_hit, t.stop_loss, t.exit_price)) =
      [(true, some 90, 95)] ∧ (95 : ℚ) ≠ 90 := by
  constructor
  · with_unfolding_all rfl
  · norm_num

/-- C3 (confirmed): on a bar where the exit check runs (position open, no
pending exit) and both a stop-loss breach and an opposite-direction signal
occur, the emitted trade reports the stop-loss exit reason and
`Stop_Loss_Hit = true` — the stop-loss check precedes the signal check in
both exit paths. -/
theorem c3_stop_loss_precedence (cfg : Config) (data : List Row) (i : Nat) (st : EngineState)
    (current prev : Row) (pos : Position) (s : ℚ)
    (hcur : data.get? i = some current) (hprev : data.get? (i - 1) = some prev)
    (hpos : st.position = some pos) (hpe : st.pending_exit = none)
    (hsl : pos.stop_loss = some s)
    (hbr : if pos.position_type = "long" then current.low ≤ s else s ≤ current.high)
    (hdsl : useDsl cfg = true → cfg.use_stop_loss = true ∧ s ≠ 0)
    (_hsig : if useDsl cfg then
        (pos.position_type = "long" ∧
          (computeSignal cfg prev current st.prev_dsl_entry_met st.prev_dsl_exit_met).1.dsl_exit_transition = true) ∨
        (pos.position_type = "short" ∧
          (computeSignal cfg prev current st.prev_dsl_entry_met st.prev_dsl_exit_met).1.dsl_entry_transition = true)
      else
        (check_entry_signal_indicator current (some prev) (effType cfg) (effParams cfg)).1 = true ∧
        (if pos.position_type = "long"
         then (check_entry_signal_indicator current (some prev) (effType cfg) (effParams cfg)).2.1 = some "Short"
         else (check_entry_signal_indicator current (some prev) (effType cfg) (effParams cfg)).2.1 = some "Long")) :
    ∃ t, (processBar cfg data i st).trades = st.trades ++ [t] ∧
      t.exit_reason = stopReasonStr (useDsl cfg) pos.position_type ∧
      t.stop_loss_hit = true := by
  exact ⟨_, stop_exit_bar cfg data i st current prev pos s hcur hprev hpos hpe hsl hbr hdsl,
    rfl, rfl⟩

/-- Witness for C3: on bar 2 of the annotated `rowsA` frame both the stop
breach (low 80 ≤ 90) and an opposite Death-Cross signal occur against the
open Long `posW`; the emitted trade reports the stop-loss reason. -/
theorem c3_stop_loss_precedence_witness :
    ∃ t, (processBar cfgA (annotateData cfgA rowsA) 2 stW).trades = stW.trades ++ [t] ∧
      t.exit_reason = stopReasonStr (useDsl cfgA) posW.position_type ∧
      t.stop_loss_hit = true := by
  exact c3_stop_loss_precedence cfgA (annotateData cfgA rowsA) 2 stW
    { date := 2, openP := 110, high := 110, low := 80, close := 95,
      cols := [("EMA2", some (890 / 9)), ("EMA1", some 95)] }
    { date := 1, openP := 100, high := 111, low := 105, close := 110,
      cols := [("EMA2", some (320 / 3)), ("EMA1", some 110)] }
    posW 90 (by with_unfolding_all rfl) (by with_unfolding_all rfl) rfl rfl rfl
    (of_decide_eq_true (by with_unfolding_all rfl))
    (of_decide_eq_true (by with_unfolding_all rfl))
    (of_decide_eq_true (by with_unfolding_all rfl))

theorem exitPhase_no_position (cfg : Config) (i : Nat) (prev current : Row)
    (sig : SignalOut) (st : EngineState) (hpos : st.position = none) :
    exitPhase cfg i prev current sig st = st := by
  rcases hpe : st.pending_exit with _ | pe <;> simp [exitPhase, hpe, hpos]

theorem pendingEntryPhase_no_pending (cfg : Config) (data : List Row) (i : Nat)
    (current : Row) (st : EngineState) (hpen : st.pending_entry = none) :
    pendingEntryPhase cfg data i current st = st := by
  rcases hpos : st.position with _ | pos <;> simp [pendingEntryPhase, hpen, hpos]

/-- C10 (confirmed): in DSL mode (entry condition present), when the run
is flat (no position, no pending entry) and the *exit* condition has a
rising edge while the entry condition does not, the engine treats it as a
Short entry signal and — when the strategy-mode gate passes, shorting is
enabled and `entry_delay ≤ 1` — opens a Short position at that bar's
close. -/
theorem c10_exit_edge_short_entry (cfg : Config) (data : List Row) (i : Nat)
    (st : EngineState) (current prev : Row) (d : Dsl) (ce cx : Cond)
    (hd : cfg.dsl = some d) (hind : d.indicators.isEmpty = false)
    (hce : d.entry = some ce) (hcx : d.exit = some cx)
    (hcur : data.get? i = some current) (hprev : data.get? (i - 1) = some prev)
    (hpos : st.position = none) (hpen : st.pending_entry = none)
    (hxmet : evaluate_dsl_condition cx current (dslColsOf cfg) (some prev) = true)
    (hxprev : st.prev_dsl_exit_met = false)
    (hnoentry : (evaluate_dsl_condition ce current (dslColsOf cfg) (some prev)
      && !st.prev_dsl_entry_met) = false)
    (hmode : cfg.strategy_mode = "reversal" ∨
      (cfg.strategy_mode = "wait_for_next" ∧ st.just_exited_on_crossover = false) ∨
      cfg.strategy_mode = "short_only")
    (hshort : cfg.enable_short = true)
    (hdelay : cfg.entry_delay ≤ 1) :
    ∃ p, (processBar cfg data i st).position = some p ∧
      p.position_type = "short" ∧ p.entry_date = current.date ∧
      p.entry_price = current.close ∧ p.entry_reason = "DSL Exit Transition" := by
  have hec : entryCond cfg = some ce := by simp [entryCond, hd, hce]
  have hxc : exitCond cfg = some cx := by simp [exitCond, hd, hcx]
  have hud : useDsl cfg = true := by
    simp [useDsl, hd, hind, entryCond, hce]
  have hsm : dslSignalMode cfg = true := by
    simp [dslSignalMode, hud, hec]
  have hsig : computeSignal cfg prev current st.prev_dsl_entry_met st.prev_dsl_exit_met =
      (⟨true, some "Short", some "DSL Exit Transition", false, true⟩,
        evaluate_dsl_condition ce current (dslColsOf cfg) (some prev),
        evaluate_dsl_condition cx current (dslColsOf cfg) (some prev)) := by
    simp only [computeSignal, hsm, if_true, hec, hxc, hxmet, hxprev, hnoentry]
    simp [dslTransSignal, hnoentry]
  simp only [processBar, hcur, hprev, hsig]
  set st1 : EngineState :=
    { st with prev_dsl_entry_met := evaluate_dsl_condition ce current (dslColsOf cfg) (some prev),
              prev_dsl_exit_met := evaluate_dsl_condition cx current (dslColsOf cfg) (some prev) }
    with hst1
  have h1pos : st1.position = none := hpos
  have h1pen : st1.pending_entry = none := hpen
  rw [exitPhase_no_position cfg i prev current _ st1 h1pos,
    pendingEntryPhase_no_pending cfg data i current st1 h1pen]
  have hgate : entryGate cfg st1.just_exited_on_crossover "Short" = true := by
    rcases hmode with h | ⟨h, hj⟩ | h <;>
      simp [entryGate, h, hshort, show st1.just_exited_on_crossover = st.just_exited_on_crossover from rfl] <;>
      simp [hj]
  have hpos4 : (entryPhase cfg data i current
      ⟨true, some "Short", some "DSL Exit Transition", false, true⟩ st1).position =
      some { entry_date := current.date, entry_price := current.close,
             shares := st1.capital / current.close, position_type := lowerStr "Short",
             stop_loss := (if cfg.use_stop_loss then
                 some (calculate_stop_loss "Short" current.close
                   (calculate_support_resistance data i 50).1
                   (calculate_support_resistance data i 50).2)
               else none),
             entry_reason := "DSL Exit Transition" } := by
    simp only [entryPhase, hpos, hpen, optRender, openPosition]
    simp only [show st1.just_exited_on_crossover = st.just_exited_on_crossover from rfl] at hgate
    simp [hgate, hdelay]
  refine ⟨{ entry_date := current.date, entry_price := current.close,
            shares := st1.capital / current.close, position_type := lowerStr "Short",
            stop_loss := (if cfg.use_stop_loss then
                some (calculate_stop_loss "Short" current.close
                  (calculate_support_resistance data i 50).1
                  (calculate_support_resistance data i 50).2)
              else none),
            entry_reason := "DSL Exit Transition" }, ?_, ?_, rfl, rfl, rfl⟩
  · simpa using hpos4
  · show lowerStr "Short" = "short"
    with_unfolding_all rfl

/-- Witness for C10: bar 1 of `rowsDsl` under `cfgDsl` (exit condition
`close > 50` turns true, entry condition cannot hold) opens a Short at
close 60. -/
theorem c10_exit_edge_short_entry_witness :
    ∃ p, (processBar cfgDsl rowsDsl 1 (initState cfgDsl)).position = some p ∧
      p.position_type = "short" ∧ p.entry_date = 1 ∧
      p.entry_price = 60 ∧ p.entry_reason = "DSL Exit Transition" := by
  exact c10_exit_edge_short_entry cfgDsl rowsDsl 1 (initState cfgDsl)
    { date := 1, openP := 40, high := 61, low := 40, close := 60 }
    { date := 0, openP := 40, high := 41, low := 39, close := 40 }
    dslShort (Cond.cmp "gt" (Operand.str "e") (Operand.num 1000000))
    (Cond.cmp "gt" (Operand.str "close") (Operand.num 50))
    rfl rfl rfl rfl (by with_unfolding_all rfl) (by with_unfolding_all rfl) rfl rfl
    (by with_unfolding_all rfl) rfl (by with_unfolding_all rfl)
    (Or.inl rfl) rfl (by decide)

theorem exitSignalCheck_stop_hit (position : Position) (current_price : ℚ)
    (current_row prev_row : Option Row) (it : String) (ip : Params) :
    (exitSignalCheck position current_price current_row prev_row it ip).stop_hit = false := by
  rcases current_row with _ | cur <;> rcases prev_row with _ | prev <;>
    simp [exitSignalCheck] <;> split_ifs <;> rfl

theorem check_exit_no_stop (position : Position) (cp ch cl : ℚ)
    (cr pr : Option Row) (it : String) (ip : Params)
    (h : position.stop_loss = none) :
    (check_exit_condition_indicator position cp ch cl cr pr it ip).stop_hit = false := by
  simp [check_exit_condition_indicator, h, exitSignalCheck_stop_hit]

theorem dslExitDecision_no_stop (cfg : Config) (pos : Position) (current : Row)
    (sig : SignalOut) (huse : cfg.use_stop_loss = false) :
    (dslExitDecision cfg pos current sig).stop_hit = false := by
  simp [dslExitDecision, huse] <;> split_ifs <;> rfl

theorem closeTrade_clean (current : Row) (price : ℚ) (reason : String)
    (hc2 : Bool) (pos : Position) (st : EngineState)
    (hcl : CleanInv st) (hps : pos.stop_loss = none) :
    CleanInv (closeTrade current price reason false hc2 pos st) := by
  refine ⟨?_, ?_, ?_⟩
  · intro t ht
    simp only [closeTrade, List.mem_append, List.mem_singleton] at ht
    rcases ht with ht | ht
    · exact hcl.trades_clean t ht
    · subst ht; exact ⟨hps, rfl⟩
  · intro p hp; simp [closeTrade] at hp
  · intro pe hpe; simp [closeTrade] at hpe

theorem openPosition_clean (cfg : Config) (data : List Row) (i : Nat) (current : Row)
    (ctype reason : String) (st : EngineState)
    (huse : cfg.use_stop_loss = false) (hcl : CleanInv st) :
    CleanInv (openPosition cfg data i current ctype reason st) := by
  refine ⟨hcl.trades_clean, ?_, hcl.pending_clean⟩
  intro p hp
  simp only [openPosition, huse] at hp
  simp only [Bool.false_eq_true, if_false, Option.some.injEq] at hp
  subst hp
  rfl

theorem exitDecide_clean (cfg : Config) (i : Nat) (current : Row) (sig : SignalOut)
    (st : EngineState) (pos : Position) (dec : ExitDecision)
    (hcl : CleanInv st) (hds : pos.stop_loss = none) (hsh : dec.stop_hit = false) :
    CleanInv (if dec.should_exit then
        (if cfg.exit_delay ≤ 1 || dec.stop_hit then
          closeTrade current dec.price (dec.reason.getD "N/A") dec.stop_hit
            sig.has_crossover pos st
        else { st with position := some pos,
                       pending_exit := some { execute_at := i + cfg.exit_delay - 1,
                                              reason := dec.reason,
                                              stop_loss_hit := dec.stop_hit } })
      else st) := by
  split
  · split
    · rw [hsh]
      exact closeTrade_clean _ _ _ _ _ _ hcl hds
    · refine ⟨hcl.trades_clean, ?_, ?_⟩
      · intro p hp
        simp only [Option.some.injEq] at hp
        subst hp
        exact hds
      · intro pe' hpe'
        simp only [Option.some.injEq] at hpe'
        subst hpe'
        exact hsh
  · exact hcl

theorem exitPhase_clean (cfg : Config) (i : Nat) (prev current : Row) (sig : SignalOut)
    (st : EngineState) (huse : cfg.use_stop_loss = false) (hcl : CleanInv st) :
    CleanInv (exitPhase cfg i prev current sig st) := by
  rcases hpe : st.pending_exit with _ | pe <;> rcases hpos : st.position with _ | pos <;>
    simp only [exitPhase, hpe, hpos]
  · exact hcl
  · -- no pending exit, open position: run the exit decision
    have hds : pos.stop_loss = none := hcl.pos_clean pos hpos
    have hsh : (if useDsl cfg && ((entryCond cfg).isSome || (exitCond cfg).isSome) then
        dslExitDecision cfg pos current sig
      else
        check_exit_condition_indicator pos current.close current.high current.low
          (some current) (some prev) (effType cfg) (effParams cfg)).stop_hit = false := by
      split
      · exact dslExitDecision_no_stop cfg pos current sig huse
      · exact check_exit_no_stop pos current.close current.high current.low
          (some current) (some prev) (effType cfg) (effParams cfg) hds
    exact exitDecide_clean cfg i current sig st pos _ hcl hds hsh
  · exact hcl
  · split
    · rw [show pe.stop_loss_hit = false from hcl.pending_clean pe hpe]
      exact closeTrade_clean _ _ _ _ _ _ hcl (hcl.pos_clean pos hpos)
    · exact hcl

theorem pendingEntryPhase_clean (cfg : Config) (data : List Row) (i : Nat) (current : Row)
    (st : EngineState) (huse : cfg.use_stop_loss = false) (hcl : CleanInv st) :
    CleanInv (pendingEntryPhase cfg data i current st) := by
  rcases hpe : st.pending_entry with _ | pe <;> rcases hpos : st.position with _ | pos <;>
    simp only [pendingEntryPhase, hpe, hpos]
  · exact hcl
  · exact hcl
  · split
    · exact openPosition_clean _ _ _ _ _ _ _ huse hcl
    · exact hcl
  · exact hcl

theorem entryPhase_clean (cfg : Config) (data : List Row) (i : Nat) (current : Row)
    (sig : SignalOut) (st : EngineState)
    (huse : cfg.use_stop_loss = false) (hcl : CleanInv st) :
    CleanInv (entryPhase cfg data i current sig st) := by
  rcases hpos : st.position with _ | pos <;> rcases hpe : st.pending_entry with _ | pe <;>
    rcases hhc : sig.has_crossover <;> rcases hct : sig.crossover_type with _ | ct <;>
    simp only [entryPhase, hpos, hpe, hhc, hct] <;> try exact hcl
  split
  · split
    · exact openPosition_clean _ _ _ _ _ _ _ huse hcl
    · exact ⟨hcl.trades_clean, by intro p hp; simp at hp, hcl.pending_clean⟩
  · exact hcl

theorem processBar_clean (cfg : Config) (data : List Row) (i : Nat) (st : EngineState)
    (huse : cfg.use_stop_loss = false) (hcl : CleanInv st) :
    CleanInv (processBar cfg data i st) := by
  unfold processBar
  rcases hcur : data.get? i with _ | current <;> rcases hprev : data.get? (i - 1) with _ | prev <;>
    simp only
  · exact hcl
  · exact hcl
  · exact hcl
  · have h1 : CleanInv ({ st with
        prev_dsl_entry_met := (computeSignal cfg prev current st.prev_dsl_entry_met st.prev_dsl_exit_met).2.1,
        prev_dsl_exit_met := (computeSignal cfg prev current st.prev_dsl_entry_met st.prev_dsl_exit_met).2.2 }) :=
      ⟨hcl.trades_clean, hcl.pos_clean, hcl.pending_clean⟩
    have h2 := exitPhase_clean cfg i prev current
      (computeSignal cfg prev current st.prev_dsl_entry_met st.prev_dsl_exit_met).1 _ huse h1
    have h3 := pendingEntryPhase_clean cfg data i current _ huse h2
    have h4 := entryPhase_clean cfg data i current
      (computeSignal cfg prev current st.prev_dsl_entry_met st.prev_dsl_exit_met).1 _ huse h3
    split
    · exact h4
    · exact ⟨h4.trades_clean, h4.pos_clean, h4.pending_clean⟩

theorem runUpTo_clean (cfg : Config) (data : List Row) (m : Nat)
    (huse : cfg.use_stop_loss = false) : CleanInv (runUpTo cfg data m) := by
  induction m with
  | zero =>
    refine ⟨?_, ?_, ?_⟩ <;> intro x hx <;> simp [runUpTo, initState] at hx
  | succ n ih =>
    rw [runUpTo_succ]
    exact processBar_clean cfg data (n + 1) _ huse ih

/-- C9 (confirmed): with `use_stop_loss = false`, no emitted trade reports
`Stop_Loss_Hit = true`, the `Stop_Loss` field of every trade is
null/absent, and the open-position report (the surviving position), if
any, carries no stop-loss either. -/
theorem c9_no_stop_loss (cfg : Config) (data : List Row)
    (huse : cfg.use_stop_loss = false) :
    (∀ t ∈ (run_backtest cfg data).1, t.stop_loss = none ∧ t.stop_loss_hit = false) ∧
    (∀ p, (run_backtest cfg data).2.2 = some p → p.stop_loss = none) := by
  unfold run_backtest
  split
  · exact ⟨by intro t ht; simp at ht, by intro p hp; simp at hp⟩
  · have hcl := runUpTo_clean cfg (annotateData cfg data) ((annotateData cfg data).length - 1) huse
    constructor
    · exact fun t ht => hcl.trades_clean t ht
    · intro p hp
      unfold finalize at hp
      rcases hps : (runLoop cfg (annotateData cfg data)).position with _ | pos
      · simp only [hps] at hp
        exact Option.noConfusion hp
      · simp only [hps] at hp
        rcases hlast : (annotateData cfg data).getLast? with _ | lr
        · rw [hlast] at hp; simp at hp
        · rw [hlast] at hp
          simp only [Option.some.injEq] at hp
          subst hp
          exact hcl.pos_clean pos hps

/-- Witness for C9: the concrete stop-loss-disabled run
`run_backtest cfgB rowsB` has exactly one trade — `tradeB`, with no stop
data — and its open Short carries no stop either. -/
theorem c9_no_stop_loss_witness :
    (run_backtest cfgB rowsB).1 = [tradeB] ∧
    (tradeB.stop_loss = none ∧ tradeB.stop_loss_hit = false) ∧
    (∀ p, (run_backtest cfgB rowsB).2.2 = some p → p.stop_loss = none) := by
  refine ⟨by with_unfolding_all rfl, ?_, (c9_no_stop_loss cfgB rowsB rfl).2⟩
  exact (c9_no_stop_loss cfgB rowsB rfl).1 tradeB
    (by rw [show (run_backtest cfgB rowsB).1 = [tradeB] from by with_unfolding_all rfl]; simp)

theorem datesMono_lt {d : List Row} (h : DatesMono d) {j k : Nat} {rj rk : Row}
    (hjk : j < k) (hj : d.get? j = some rj) (hk : d.get? k = some rk) :
    rj.date < rk.date := by
  have hp : List.Pairwise (· < ·) (d.map (·.date)) :=
    (List.chain'_iff_pairwise).mp h
  have hj' := List.get?_eq_some.mp hj
  have hk' := List.get?_eq_some.mp hk
  obtain ⟨hjl, hjg⟩ := hj'
  obtain ⟨hkl, hkg⟩ := hk'
  have := (List.pairwise_iff_get.mp hp) ⟨j, by simpa using hjl⟩ ⟨k, by simpa using hkl⟩ hjk
  simp only [List.get_eq_getElem] at hjg hkg
  simpa [List.get_map, List.get_eq_getElem, hjg, hkg] using this

theorem datesMono_le {d : List Row} (h : DatesMono d) {j k : Nat} {rj rk : Row}
    (hjk : j ≤ k) (hj : d.get? j = some rj) (hk : d.get? k = some rk) :
    rj.date ≤ rk.date := by
  rcases Nat.lt_or_ge j k with hlt | hge
  · exact Nat.le_of_lt (datesMono_lt h hlt hj hk)
  · have : j = k := Nat.le_antisymm hjk hge
    subst this
    rw [hj] at hk
    cases hk
    exact Nat.le_refl _

theorem rollingApply_length (f : List ℚ → ℚ) (p : Nat) (xs : List (Option ℚ)) :
    (rollingApply f p xs).length = xs.length := by
  simp [rollingApply]

theorem calculate_ema_length (closes : List ℚ) (period : Nat) :
    (calculate_ema closes period).length = closes.length := by
  cases closes <;> simp [calculate_ema, List.length_scanl]

theorem diffSeries_length (closes : List ℚ) :
    (diffSeries closes).length = closes.length := by
  cases closes <;> simp [diffSeries]

theorem calculate_ma_length (closes : List ℚ) (period : Nat) :
    (calculate_ma closes period).length = closes.length := by
  simp [calculate_ma, rollingApply_length]

theorem calculate_dema_length (closes : List ℚ) (period : Nat) :
    (calculate_dema closes period).length = closes.length := by
  simp [calculate_dema, calculate_ema_length]

theorem calculate_rsi_length (closes : List ℚ) (period : Nat) :
    (calculate_rsi closes period).length = closes.length := by
  simp [calculate_rsi, rollingApply_length, diffSeries_length]

theorem calculate_cci_length (d : List Row) (period : Nat) :
    (calculate_cci d period).length = d.length := by
  simp [calculate_cci, rollingApply_length]

theorem calculate_roll_median_length (closes : List ℚ) (period : Nat) :
    (calculate_roll_median closes period).length = closes.length := by
  simp [calculate_roll_median, rollingApply_length]

theorem calculate_roll_percentile_length (closes : List ℚ) (period : Nat) :
    (calculate_roll_percentile closes period).length = closes.length := by
  simp [calculate_roll_percentile, rollingApply_length]

theorem addColumn_map_date (d : List Row) (name : String) (vals : List (Option ℚ))
    (hlen : vals.length = d.length) :
    (addColumn d name vals).map (·.date) = d.map (·.date) := by
  induction d generalizing vals with
  | nil => simp [addColumn]
  | cons r rs ih =>
    cases vals with
    | nil => simp at hlen
    | cons v vs =>
      have htl := ih vs (by simpa using hlen)
      simp only [addColumn] at htl ⊢
      simp only [List.zipWith_cons_cons, List.map_cons]
      rw [htl]

theorem annotateDslOne_map_date (d : List Row) (aliasName : String) (conf : IndConf) :
    (annotateDslOne d aliasName conf).map (·.date) = d.map (·.date) := by
  unfold annotateDslOne
  rcases dslColName aliasName conf with _ | col
  · rfl
  · simp only
    split_ifs <;>
      apply addColumn_map_date <;>
      simp [calculate_ema_length, calculate_ma_length, calculate_dema_length,
        calculate_rsi_length, calculate_cci_length, calculate_zscore,
        calculate_roll_std, calculate_roll_median_length, calculate_roll_percentile_length]

theorem annotateDsl_map_date (cfg : Config) (d : List Row) :
    (annotateDsl cfg d).map (·.date) = d.map (·.date) := by
  unfold annotateDsl
  split
  · rcases cfg.dsl with _ | ds
    · rfl
    · simp only
      induction ds.indicators generalizing d with
      | nil => rfl
      | cons ac rest ih =>
        simp only [List.foldl_cons]
        rw [ih (annotateDslOne d ac.1 ac.2), annotateDslOne_map_date]
  · rfl

theorem addColumn_length (d : List Row) (name : String) (vals : List (Option ℚ)) :
    (addColumn d name vals).length = min d.length vals.length := by
  simp [addColumn]

theorem annotateIndicator_map_date (cfg : Config) (d : List Row) :
    (annotateIndicator cfg d).map (·.date) = d.map (·.date) := by
  unfold annotateIndicator
  split_ifs
  · rw [addColumn_map_date _ _ _ (by simp [addColumn_length, calculate_ema_length]),
      addColumn_map_date _ _ _ (by simp [calculate_ema_length])]
  · rw [addColumn_map_date _ _ _ (by simp [addColumn_length, calculate_ma_length]),
      addColumn_map_date _ _ _ (by simp [calculate_ma_length])]
  · rw [addColumn_map_date _ _ _ (by simp [calculate_rsi_length])]
  · rw [addColumn_map_date _ _ _ (by simp [calculate_cci_length])]
  · rw [addColumn_map_date _ _ _ (by simp [calculate_zscore])]
  · rw [addColumn_map_date _ _ _ (by simp [addColumn_length, calculate_ema_length]),
      addColumn_map_date _ _ _ (by simp [calculate_ema_length])]

theorem annotateData_map_date (cfg : Config) (d : List Row) :
    (annotateData cfg d).map (·.date) = d.map (·.date) := by
  rw [annotateData, annotateIndicator_map_date, annotateDsl_map_date]

theorem annotateData_datesMono (cfg : Config) (d : List Row) (h : DatesMono d) :
    DatesMono (annotateData cfg d) := by
  unfold DatesMono
  rw [annotateData_map_date]
  exact h

theorem LoopInv_weaken {data : List Row} {b b' : Nat} {st : EngineState}
    (h : b ≤ b') (hinv : LoopInv data b st) : LoopInv data b' st := by
  refine ⟨?_, ?_, hinv.chain⟩
  · intro t ht
    obtain ⟨j, k, rj, rk, h1, h2, h3, h4, h5, h6, h7⟩ := hinv.trades_bars t ht
    exact ⟨j, k, rj, rk, h1, h2, Nat.lt_of_lt_of_le h3 h, h4, h5, h6, h7⟩
  · intro p hp
    obtain ⟨j, rj, h1, h2, h3, h4, h5⟩ := hinv.pos_bar p hp
    exact ⟨j, rj, h1, Nat.lt_of_lt_of_le h2 h, h3, h4, h5⟩

theorem closeTrade_inv (data : List Row) (i : Nat) (current : Row) (price : ℚ)
    (reason : String) (hit hc : Bool) (pos : Position) (st : EngineState)
    (hmono : DatesMono data) (hcur : data.get? i = some current)
    (hinv : LoopInv data i st) (hpos : st.position = some pos) :
    LoopInv data (i + 1) (closeTrade current price reason hit hc pos st) := by
  obtain ⟨j, rj, hj1, hji, hgj, hpd, hall⟩ := hinv.pos_bar pos hpos
  refine ⟨?_, ?_, ?_⟩
  · intro t ht
    simp only [closeTrade, List.mem_append, List.mem_singleton] at ht
    rcases ht with ht | ht
    · obtain ⟨j', k', rj', rk', h1, h2, h3, h4, h5, h6, h7⟩ := hinv.trades_bars t ht
      exact ⟨j', k', rj', rk', h1, h2, Nat.lt_succ_of_lt h3, h4, h5, h6, h7⟩
    · subst ht
      exact ⟨j, i, rj, current, hj1, hji, Nat.lt_succ_self i, hgj, hcur,
        by simp [mkTrade, hpd], by simp [mkTrade]⟩
  · intro p hp
    simp [closeTrade] at hp
  · show List.Chain' _ (st.trades ++ [_])
    rw [List.chain'_append]
    refine ⟨hinv.chain, List.chain'_singleton _, ?_⟩
    intro x hx y hy
    simp only [List.head?_cons, Option.mem_def, Option.some.injEq] at hy
    subst hy
    have hxmem : x ∈ st.trades := List.mem_of_mem_getLast? hx
    simpa [mkTrade] using hall x hxmem

theorem openPosition_inv (cfg : Config) (data : List Row) (i : Nat) (current : Row)
    (ty reason : String) (st : EngineState)
    (hmono : DatesMono data) (hi : 1 ≤ i) (hcur : data.get? i = some current)
    (hinv : LoopInv data (i + 1) st) :
    LoopInv data (i + 1) (openPosition cfg data i current ty reason st) := by
  refine ⟨hinv.trades_bars, ?_, hinv.chain⟩
  intro p hp
  simp only [openPosition, Option.some.injEq] at hp
  subst hp
  refine ⟨i, current, hi, Nat.lt_succ_self i, hcur, rfl, ?_⟩
  intro t ht
  obtain ⟨j', k', rj', rk', h1, h2, h3, hgj', hgk', hed, hxd⟩ := hinv.trades_bars t ht
  rw [hxd]
  exact datesMono_le hmono (Nat.lt_succ_iff.mp h3) hgk' hcur

theorem exitDecide_inv (cfg : Config) (i : Nat) (current : Row) (sig : SignalOut)
    (st : EngineState) (pos : Position) (dec : ExitDecision) (data : List Row)
    (hmono : DatesMono data) (hcur : data.get? i = some current)
    (hinv : LoopInv data i st) (hpos : st.position = some pos) :
    LoopInv data (i + 1) (if dec.should_exit then
        (if cfg.exit_delay ≤ 1 || dec.stop_hit then
          closeTrade current dec.price (dec.reason.getD "N/A") dec.stop_hit
            sig.has_crossover pos st
        else { st with position := some pos,
                       pending_exit := some { execute_at := i + cfg.exit_delay - 1,
                                              reason := dec.reason,
                                              stop_loss_hit := dec.stop_hit } })
      else st) := by
  split
  · split
    · exact closeTrade_inv data i current _ _ _ _ pos st hmono hcur hinv hpos
    · refine ⟨?_, ?_, hinv.chain⟩
      · intro t ht
        obtain ⟨j', k', rj', rk', h1, h2, h3, h4, h5, h6, h7⟩ := hinv.trades_bars t ht
        exact ⟨j', k', rj', rk', h1, h2, Nat.lt_succ_of_lt h3, h4, h5, h6, h7⟩
      · intro p hp
        simp only [Option.some.injEq] at hp
        subst hp
        obtain ⟨j, rj, h1, h2, h3, h4, h5⟩ := hinv.pos_bar pos hpos
        exact ⟨j, rj, h1, Nat.lt_succ_of_lt h2, h3, h4, h5⟩
  · exact LoopInv_weaken (Nat.le_succ i) hinv

theorem exitPhase_inv (cfg : Config) (i : Nat) (prev current : Row) (sig : SignalOut)
    (st : EngineState) (data : List Row)
    (hmono : DatesMono data) (hcur : data.get? i = some current)
    (hinv : LoopInv data i st) :
    LoopInv data (i + 1) (exitPhase cfg i prev current sig st) := by
  rcases hpe : st.pending_exit with _ | pe <;> rcases hpos : st.position with _ | pos <;>
    simp only [exitPhase, hpe, hpos]
  · exact LoopInv_weaken (Nat.le_succ i) hinv
  · exact exitDecide_inv cfg i current sig st pos _ data hmono hcur hinv hpos
  · exact LoopInv_weaken (Nat.le_succ i) hinv
  · split
    · exact closeTrade_inv data i current _ _ _ _ pos st hmono hcur hinv hpos
    · exact LoopInv_weaken (Nat.le_succ i) hinv

theorem pendingEntryPhase_inv (cfg : Config) (data : List Row) (i : Nat) (current : Row)
    (st : EngineState)
    (hmono : DatesMono data) (hi : 1 ≤ i) (hcur : data.get? i = some current)
    (hinv : LoopInv data (i + 1) st) :
    LoopInv data (i + 1) (pendingEntryPhase cfg data i current st) := by
  rcases hpe : st.pending_entry with _ | pe <;> rcases hpos : st.position with _ | pos <;>
    simp only [pendingEntryPhase, hpe, hpos]
  · exact hinv
  · exact hinv
  · split
    · exact openPosition_inv cfg data i current _ _ _ hmono hi hcur hinv
    · exact hinv
  · exact hinv

theorem entryPhase_inv (cfg : Config) (data : List Row) (i : Nat) (current : Row)
    (sig : SignalOut) (st : EngineState)
    (hmono : DatesMono data) (hi : 1 ≤ i) (hcur : data.get? i = some current)
    (hinv : LoopInv data (i + 1) st) :
    LoopInv data (i + 1) (entryPhase cfg data i current sig st) := by
  rcases hpos : st.position with _ | pos <;> rcases hpe : st.pending_entry with _ | pe <;>
    rcases hhc : sig.has_crossover <;> rcases hct : sig.crossover_type with _ | ct <;>
    simp only [entryPhase, hpos, hpe, hhc, hct] <;> try exact hinv
  split
  · split
    · exact openPosition_inv cfg data i current _ _ _ hmono hi hcur hinv
    · refine ⟨hinv.trades_bars, ?_, hinv.chain⟩
      intro p hp
      simp at hp
  · exact hinv

theorem processBar_inv (cfg : Config) (data : List Row) (i : Nat) (st : EngineState)
    (hmono : DatesMono data) (hi : 1 ≤ i) (hinv : LoopInv data i st) :
    LoopInv data (i + 1) (processBar cfg data i st) := by
  unfold processBar
  rcases hcur : data.get? i with _ | current <;>
    rcases hprev : data.get? (i - 1) with _ | prev <;> simp only
  · exact LoopInv_weaken (Nat.le_succ i) hinv
  · exact LoopInv_weaken (Nat.le_succ i) hinv
  · exact LoopInv_weaken (Nat.le_succ i) hinv
  · have h1 : LoopInv data i ({ st with
        prev_dsl_entry_met := (computeSignal cfg prev current st.prev_dsl_entry_met st.prev_dsl_exit_met).2.1,
        prev_dsl_exit_met := (computeSignal cfg prev current st.prev_dsl_entry_met st.prev_dsl_exit_met).2.2 }) :=
      ⟨hinv.trades_bars, hinv.pos_bar, hinv.chain⟩
    have h2 := exitPhase_inv cfg i prev current
      (computeSignal cfg prev current st.prev_dsl_entry_met st.prev_dsl_exit_met).1 _ data
      hmono hcur h1
    have h3 := pendingEntryPhase_inv cfg data i current _ hmono hi hcur h2
    have h4 := entryPhase_inv cfg data i current
      (computeSignal cfg prev current st.prev_dsl_entry_met st.prev_dsl_exit_met).1 _
      hmono hi hcur h3
    split
    · exact h4
    · exact ⟨h4.trades_bars, h4.pos_bar, h4.chain⟩

theorem runUpTo_inv (cfg : Config) (data : List Row) (m : Nat)
    (hmono : DatesMono data) : LoopInv data (m + 1) (runUpTo cfg data m) := by
  induction m with
  | zero =>
    refine ⟨?_, ?_, ?_⟩
    · intro t ht; simp [runUpTo, initState] at ht
    · intro p hp; simp [runUpTo, initState] at hp
    · show List.Chain' _ (initState cfg).trades
      simp [initState]
  | succ n ih =>
    rw [runUpTo_succ]
    exact processBar_inv cfg data (n + 1) _ hmono (Nat.le_add_left 1 n) ih

/-- C4 (confirmed): with strictly increasing candle timestamps, every
emitted trade's entry timestamp strictly precedes its exit timestamp, the
trades are chronologically non-overlapping (each closes no later than the
next opens), and any surviving open position opens no earlier than every
recorded exit — the observable content of the single-position invariant
(the engine state itself carries at most one `Option Position`, mirroring
the source's single `position` variable). -/
theorem c4_single_position_order (cfg : Config) (candles : List Row)
    (hmono : DatesMono candles) :
    (∀ t ∈ (run_backtest cfg candles).1, t.entry_date < t.exit_date) ∧
    List.Chain' (fun a b => a.exit_date ≤ b.entry_date) (run_backtest cfg candles).1 ∧
    (∀ p, (run_backtest cfg candles).2.2 = some p →
      ∀ t ∈ (run_backtest cfg candles).1, t.exit_date ≤ p.entry_date) := by
  unfold run_backtest
  split
  · refine ⟨by intro t ht; simp at ht, by simp, by intro p hp; simp at hp⟩
  · have hm : DatesMono (annotateData cfg candles) := annotateData_datesMono cfg candles hmono
    have hinv := runUpTo_inv cfg (annotateData cfg candles)
      ((annotateData cfg candles).length - 1) hm
    refine ⟨?_, hinv.chain, ?_⟩
    · intro t ht
      obtain ⟨j, k, rj, rk, h1, h2, h3, h4, h5, h6, h7⟩ := hinv.trades_bars t ht
      rw [h6, h7]
      exact datesMono_lt hm h2 h4 h5
    · intro p hp t ht
      unfold finalize at hp
      rcases hps : (runLoop cfg (annotateData cfg candles)).position with _ | pos
      · simp only [hps] at hp
        exact Option.noConfusion hp
      · simp only [hps] at hp
        rcases hlast : (annotateData cfg candles).getLast? with _ | lr
        · rw [hlast] at hp; simp at hp
        · rw [hlast] at hp
          simp only [Option.some.injEq] at hp
          subst hp
          obtain ⟨j, rj, h1, h2, h3, h4, h5⟩ := hinv.pos_bar pos hps
          exact h5 t ht

/-- Witness for C4 on the concrete run `run_backtest cfgB rowsB`: its one
trade entered at timestamp 1 and exited at 2, and the trade list is
(trivially) non-overlapping. -/
theorem c4_single_position_order_witness :
    (run_backtest cfgB rowsB).1 = [tradeB] ∧
    tradeB.entry_date < tradeB.exit_date ∧
    List.Chain' (fun a b => a.exit_date ≤ b.entry_date) (run_backtest cfgB rowsB).1 := by
  have hmono : DatesMono rowsB := by
    unfold DatesMono rowsB
    simp [List.chain'_cons]
  have h := c4_single_position_order cfgB rowsB hmono
  refine ⟨by with_unfolding_all rfl, ?_, h.2.1⟩
  exact h.1 tradeB
    (by rw [show (run_backtest cfgB rowsB).1 = [tradeB] from by with_unfolding_all rfl]; simp)

theorem entryMetAt_zero (cfg : Config) (data : List Row) :
    entryMetAt cfg data 0 = false := by
  unfold entryMetAt
  rcases entryCond cfg with _ | c <;> rcases data.get? 0 with _ | r <;> simp

theorem exitMetAt_zero (cfg : Config) (data : List Row) :
    exitMetAt cfg data 0 = false := by
  unfold exitMetAt
  rcases exitCond cfg with _ | c <;> rcases data.get? 0 with _ | r <;> simp

theorem signalAt_eq (cfg : Config) (data : List Row) (i : Nat) (current prev : Row)
    (hcur : data.get? i = some current) (hprev : data.get? (i - 1) = some prev) :
    signalAt cfg data i =
      (computeSignal cfg prev current (canonEM cfg data (i - 1)) (canonXM cfg data (i - 1))).1 := by
  have hcur' : data[i]? = some current := by rw [← List.get?_eq_getElem?]; exact hcur
  have hprev' : data[i - 1]? = some prev := by rw [← List.get?_eq_getElem?]; exact hprev
  simp [signalAt, hcur', hprev']

theorem computeSignal_snd (cfg : Config) (data : List Row) (i : Nat) (current prev : Row)
    (hi : 1 ≤ i) (hcur : data.get? i = some current) (hprev : data.get? (i - 1) = some prev) :
    (computeSignal cfg prev current (canonEM cfg data (i - 1)) (canonXM cfg data (i - 1))).2.1 =
      canonEM cfg data i ∧
    (computeSignal cfg prev current (canonEM cfg data (i - 1)) (canonXM cfg data (i - 1))).2.2 =
      canonXM cfg data i := by
  have hcur' : data[i]? = some current := by rw [← List.get?_eq_getElem?]; exact hcur
  have hprev' : data[i - 1]? = some prev := by rw [← List.get?_eq_getElem?]; exact hprev
  cases hds : dslSignalMode cfg
  · simp [computeSignal, hds, canonEM, canonXM]
  · constructor
    · simp only [computeSignal, hds, if_true]
      rcases hec : entryCond cfg with _ | c
      · simp [canonEM, entryMetAt, hec, hds]
      · simp [canonEM, entryMetAt, hec, hds, hcur', hprev', hi]
    · simp only [computeSignal, hds, if_true]
      rcases hxc : exitCond cfg with _ | c
      · simp [canonXM, exitMetAt, hxc, hds]
      · simp [canonXM, exitMetAt, hxc, hds, hcur', hprev', hi]

theorem entryPhase_no_fire (cfg : Config) (data : List Row) (i : Nat) (current : Row)
    (sig : SignalOut) (st : EngineState)
    (hfire : (sig.has_crossover && (match sig.crossover_type with
      | some c => gatePassFlat cfg c
      | none => false)) = false)
    (hjust : st.just_exited_on_crossover = false) :
    entryPhase cfg data i current sig st = st := by
  rcases hpos : st.position with _ | pos <;> rcases hpe : st.pending_entry with _ | pe <;>
    rcases hhc : sig.has_crossover <;> rcases hct : sig.crossover_type with _ | ct <;>
    simp only [entryPhase, hpos, hpe, hhc, hct] <;> try rfl
  rw [hhc, hct] at hfire
  simp only [Bool.true_and] at hfire
  have : entryGate cfg st.just_exited_on_crossover ct = false := by
    rw [hjust]
    exact hfire
  rw [this]
  simp

theorem flatState_zero (cfg : Config) (data : List Row) :
    flatState cfg data 0 = initState cfg := by
  unfold flatState
  rw [show canonEM cfg data 0 = false by simp [canonEM, entryMetAt_zero],
    show canonXM cfg data 0 = false by simp [canonXM, exitMetAt_zero]]
  rfl

theorem runUpTo_flat (cfg : Config) (data : List Row) (m : Nat) (hm : m < data.length)
    (hq : ∀ i, 1 ≤ i → i ≤ m → entryFireAt cfg data i = false) :
    runUpTo cfg data m = flatState cfg data m := by
  induction m with
  | zero =>
    rw [flatState_zero]
    rfl
  | succ n ih =>
    have hn : n < data.length := Nat.lt_of_succ_lt hm
    have hih := ih hn (fun i h1 h2 => hq i h1 (Nat.le_succ_of_le h2))
    rw [runUpTo_succ, hih]
    obtain ⟨current, hcur⟩ : ∃ r, data.get? (n + 1) = some r := by
      rw [List.get?_eq_get hm]; exact ⟨_, rfl⟩
    obtain ⟨prev, hprev⟩ : ∃ r, data.get? (n + 1 - 1) = some r := by
      rw [show n + 1 - 1 = n from rfl, List.get?_eq_get hn]; exact ⟨_, rfl⟩
    simp only [processBar, hcur, hprev]
    have hsnd := computeSignal_snd cfg data (n + 1) current prev (Nat.le_add_left 1 n) hcur hprev
    have hflags : (flatState cfg data n).prev_dsl_entry_met = canonEM cfg data (n + 1 - 1) ∧
        (flatState cfg data n).prev_dsl_exit_met = canonXM cfg data (n + 1 - 1) := ⟨rfl, rfl⟩
    rw [hflags.1, hflags.2]
    set sigc := computeSignal cfg prev current (canonEM cfg data (n + 1 - 1)) (canonXM cfg data (n + 1 - 1))
      with hsig
    have hst1 : ({ flatState cfg data n with
        prev_dsl_entry_met := sigc.2.1, prev_dsl_exit_met := sigc.2.2 } : EngineState) =
        flatState cfg data (n + 1) := by
      unfold flatState
      rw [hsnd.1, hsnd.2]
    rw [hst1]
    rw [exitPhase_no_position cfg (n + 1) prev current sigc.1 _ rfl,
      pendingEntryPhase_no_pending cfg data (n + 1) current _ rfl]
    have hfire : (sigc.1.has_crossover && (match sigc.1.crossover_type with
        | some c => gatePassFlat cfg c
        | none => false)) = false := by
      have := hq (n + 1) (Nat.le_add_left 1 n) (Nat.le_refl _)
      unfold entryFireAt at this
      rwa [signalAt_eq cfg data (n + 1) current prev hcur hprev] at this
    rw [entryPhase_no_fire cfg data (n + 1) current sigc.1 _ hfire rfl]
    split
    · rfl
    · rfl

/-- C5 (confirmed): if no entry signal fires on any bar of the annotated
frame, the run emits no trades and the final capital equals the initial
capital — capital is only mutated at trade close. -/
theorem c5_flat_conserves_capital (cfg : Config) (data : List Row)
    (hq : ∀ i, i < (annotateData cfg data).length → 1 ≤ i →
      (signalAt cfg (annotateData cfg data) i).has_crossover = false) :
    (run_backtest cfg data).1 = [] ∧
    (∀ p, (run_backtest cfg data).2.1 = some p →
      p.final_capital = cfg.initial_capital ∧ p.total_trades = 0) := by
  unfold run_backtest
  split
  · exact ⟨rfl, by intro p hp; simp at hp⟩
  · rename_i hne
    have hlen : 0 < (annotateData cfg data).length := by
      have h0 : 0 < data.length := by
        cases data
        · simp at hne
        · simp
      have : (annotateData cfg data).length = data.length := by
        have := annotateData_map_date cfg data
        have h1 := congrArg List.length this
        simpa using h1
      rw [this]
      exact h0
    have hflat := runUpTo_flat cfg (annotateData cfg data)
      ((annotateData cfg data).length - 1)
      (Nat.sub_lt hlen Nat.one_pos)
      (fun i h1 h2 => by
        have hi : i < (annotateData cfg data).length :=
          Nat.lt_of_le_of_lt h2 (Nat.sub_lt hlen Nat.one_pos)
        unfold entryFireAt
        rw [hq i hi h1]
        rfl)
    have hloop : runLoop cfg (annotateData cfg data) =
        flatState cfg (annotateData cfg data) ((annotateData cfg data).length - 1) := hflat
    constructor
    · show (finalize cfg _ (runLoop cfg _)).1 = []
      rw [hloop]
      rfl
    · intro p hp
      rw [show (finalize cfg (annotateData cfg data) (runLoop cfg (annotateData cfg data))).2.1 =
          some { initial_capital := cfg.initial_capital, final_capital := cfg.initial_capital,
                 total_return := 0, total_return_pct := 0, total_trades := 0,
                 winning_trades := 0, losing_trades := 0, win_rate := 0 } from by
        rw [hloop]; rfl] at hp
      simp only [Option.some.injEq] at hp
      subst hp
      exact ⟨rfl, rfl⟩

/-- Witness for C5: the flat series `rowsFlat` under `cfgA` never fires,
the run has no trades, and the reported final capital is the initial
10000. -/
theorem c5_flat_conserves_capital_witness :
    (run_backtest cfgA rowsFlat).1 = [] ∧
    (∀ p, (run_backtest cfgA rowsFlat).2.1 = some p →
      p.final_capital = cfgA.initial_capital ∧ p.total_trades = 0) := by
  exact c5_flat_conserves_capital cfgA rowsFlat
    (of_decide_eq_true (by with_unfolding_all rfl))
theorem entryPhase_fire (cfg : Config) (data : List Row) (i : Nat) (current : Row)
    (sig : SignalOut) (st : EngineState) (d : String)
    (hpos : st.position = none) (hpen : st.pending_entry = none)
    (hhc : sig.has_crossover = true) (hct : sig.crossover_type = some d)
    (hgate : entryGate cfg st.just_exited_on_crossover d = true)
    (hdelay : cfg.entry_delay ≤ 1) :
    entryPhase cfg data i current sig st =
      openPosition cfg data i current d (optRender sig.crossover_reason) st := by
  simp [entryPhase, hpos, hpen, hhc, hct, hgate, hdelay]

theorem entryPhase_fire_sched (cfg : Config) (data : List Row) (i : Nat) (current : Row)
    (sig : SignalOut) (st : EngineState) (d : String)
    (hpos : st.position = none) (hpen : st.pending_entry = none)
    (hhc : sig.has_crossover = true) (hct : sig.crossover_type = some d)
    (hgate : entryGate cfg st.just_exited_on_crossover d = true)
    (hdelay : 2 ≤ cfg.entry_delay) :
    entryPhase cfg data i current sig st =
      { st with pending_entry := some { execute_at := i + cfg.entry_delay - 1,
                                        ptype := d, reason := sig.crossover_reason } } := by
  have hnd : ¬ cfg.entry_delay ≤ 1 := by omega
  simp [entryPhase, hpos, hpen, hhc, hct, hgate, hnd]

theorem entryPhase_pending (cfg : Config) (data : List Row) (i : Nat) (current : Row)
    (sig : SignalOut) (st : EngineState) (pe : PendingEntry)
    (hpen : st.pending_entry = some pe) :
    entryPhase cfg data i current sig st = st := by
  rcases hpos : st.position with _ | pos <;> rcases hhc : sig.has_crossover <;>
    rcases hct : sig.crossover_type with _ | ct <;> simp [entryPhase, hpos, hpen, hhc, hct]

theorem entryPhase_some (cfg : Config) (data : List Row) (i : Nat) (current : Row)
    (sig : SignalOut) (st : EngineState) (hpos : st.position.isSome = true) :
    entryPhase cfg data i current sig st = st := by
  rcases hp : st.position with _ | p
  · rw [hp] at hpos
    cases hpos
  · rcases hpe : st.pending_entry with _ | pe <;> rcases hhc : sig.has_crossover <;>
      rcases hct : sig.crossover_type with _ | ct <;> simp [entryPhase, hp, hpe, hhc, hct]

theorem pendingEntryPhase_wait (cfg : Config) (data : List Row) (i : Nat) (current : Row)
    (st : EngineState) (pe : PendingEntry) (hpen : st.pending_entry = some pe)
    (hpos : st.position = none) (hnd : ¬ pe.execute_at ≤ i) :
    pendingEntryPhase cfg data i current st = st := by
  simp [pendingEntryPhase, hpen, hpos, hnd]

theorem pendingEntryPhase_fill (cfg : Config) (data : List Row) (i : Nat) (current : Row)
    (st : EngineState) (pe : PendingEntry) (hpen : st.pending_entry = some pe)
    (hpos : st.position = none) (hdue : pe.execute_at ≤ i) :
    pendingEntryPhase cfg data i current st =
      openPosition cfg data i current pe.ptype (optRender pe.reason ++ " (delayed)") st := by
  simp [pendingEntryPhase, hpen, hpos, hdue]

/-- One bar stepped from the flat state reduces to the entry phase alone
(the exit and pending-entry phases are identity on a flat state). -/
theorem processBar_flat (cfg : Config) (data : List Row) (n : Nat) (current prev : Row)
    (hcur : data.get? (n + 1) = some current) (hprev : data.get? n = some prev) :
    processBar cfg data (n + 1) (flatState cfg data n) =
      (if (signalAt cfg data (n + 1)).has_crossover then
        entryPhase cfg data (n + 1) current (signalAt cfg data (n + 1)) (flatState cfg data (n + 1))
      else
        { entryPhase cfg data (n + 1) current (signalAt cfg data (n + 1))
            (flatState cfg data (n + 1)) with just_exited_on_crossover := false }) := by
  have hprev' : data.get? (n + 1 - 1) = some prev := hprev
  simp only [processBar, hcur, hprev']
  have hsnd := computeSignal_snd cfg data (n + 1) current prev (Nat.le_add_left 1 n) hcur hprev'
  rw [show (flatState cfg data n).prev_dsl_entry_met = canonEM cfg data (n + 1 - 1) from rfl,
    show (flatState cfg data n).prev_dsl_exit_met = canonXM cfg data (n + 1 - 1) from rfl]
  set sigc := computeSignal cfg prev current (canonEM cfg data (n + 1 - 1))
    (canonXM cfg data (n + 1 - 1)) with hsig
  have hst1 : ({ flatState cfg data n with
      prev_dsl_entry_met := sigc.2.1, prev_dsl_exit_met := sigc.2.2 } : EngineState) =
      flatState cfg data (n + 1) := by
    unfold flatState
    rw [hsnd.1, hsnd.2]
  rw [hst1]
  rw [exitPhase_no_position cfg (n + 1) prev current sigc.1 _ rfl,
    pendingEntryPhase_no_pending cfg data (n + 1) current _ rfl]
  have hseq : signalAt cfg data (n + 1) = sigc.1 := by
    rw [hsig]
    exact signalAt_eq cfg data (n + 1) current prev hcur hprev'
  rw [← hseq]

/-- One bar stepped from the flat-with-pending-entry state reduces to the
pending-entry and entry phases (the exit phase is identity). -/
theorem processBar_pend (cfg : Config) (data : List Row) (n : Nat) (e : Nat) (d : String)
    (reason : Option String) (current prev : Row)
    (hcur : data.get? (n + 1) = some current) (hprev : data.get? n = some prev) :
    processBar cfg data (n + 1) (pendState cfg data n e d reason) =
      (if (signalAt cfg data (n + 1)).has_crossover then
        entryPhase cfg data (n + 1) current (signalAt cfg data (n + 1))
          (pendingEntryPhase cfg data (n + 1) current (pendState cfg data (n + 1) e d reason))
      else
        { entryPhase cfg data (n + 1) current (signalAt cfg data (n + 1))
            (pendingEntryPhase cfg data (n + 1) current (pendState cfg data (n + 1) e d reason)) with
          just_exited_on_crossover := false }) := by
  have hprev' : data.get? (n + 1 - 1) = some prev := hprev
  simp only [processBar, hcur, hprev']
  have hsnd := computeSignal_snd cfg data (n + 1) current prev (Nat.le_add_left 1 n) hcur hprev'
  rw [show (pendState cfg data n e d reason).prev_dsl_entry_met = canonEM cfg data (n + 1 - 1) from rfl,
    show (pendState cfg data n e d reason).prev_dsl_exit_met = canonXM cfg data (n + 1 - 1) from rfl]
  set sigc := computeSignal cfg prev current (canonEM cfg data (n + 1 - 1))
    (canonXM cfg data (n + 1 - 1)) with hsig
  have hst1 : ({ pendState cfg data n e d reason with
      prev_dsl_entry_met := sigc.2.1, prev_dsl_exit_met := sigc.2.2 } : EngineState) =
      pendState cfg data (n + 1) e d reason := by
    unfold pendState flatState
    rw [hsnd.1, hsnd.2]
  rw [hst1]
  rw [exitPhase_no_position cfg (n + 1) prev current sigc.1 _ rfl]
  have hseq : signalAt cfg data (n + 1) = sigc.1 := by
    rw [hsig]
    exact signalAt_eq cfg data (n + 1) current prev hcur hprev'
  rw [← hseq]

/-- If no earlier bar fires and bar `n+1` fires with `entry_delay ≤ 1`,
the run opens the position immediately at bar `n+1`. -/
theorem runUpTo_fire_immediate (cfg : Config) (data : List Row) (n : Nat)
    (current prev : Row) (d : String)
    (hcur : data.get? (n + 1) = some current) (hprev : data.get? n = some prev)
    (hq : ∀ i, 1 ≤ i → i ≤ n → entryFireAt cfg data i = false)
    (hn : n < data.length)
    (hfire : (signalAt cfg data (n + 1)).has_crossover = true)
    (htype : (signalAt cfg data (n + 1)).crossover_type = some d)
    (hgate : gatePassFlat cfg d = true)
    (hdelay : cfg.entry_delay ≤ 1) :
    runUpTo cfg data (n + 1) =
      openPosition cfg data (n + 1) current d
        (optRender (signalAt cfg data (n + 1)).crossover_reason)
        (flatState cfg data (n + 1)) := by
  rw [runUpTo_succ, runUpTo_flat cfg data n hn hq,
    processBar_flat cfg data n current prev hcur hprev, if_pos hfire]
  have hgate' : entryGate cfg (flatState cfg data (n + 1)).just_exited_on_crossover d = true := hgate
  exact entryPhase_fire cfg data (n + 1) current (signalAt cfg data (n + 1))
    (flatState cfg data (n + 1)) d rfl rfl hfire htype hgate' hdelay

/-- If no earlier bar fires and bar `n+1` fires with `entry_delay ≥ 2`,
the run schedules a pending entry for bar `n + entry_delay`. -/
theorem runUpTo_fire_scheduled (cfg : Config) (data : List Row) (n : Nat)
    (current prev : Row) (d : String)
    (hcur : data.get? (n + 1) = some current) (hprev : data.get? n = some prev)
    (hq : ∀ i, 1 ≤ i → i ≤ n → entryFireAt cfg data i = false)
    (hn : n < data.length)
    (hfire : (signalAt cfg data (n + 1)).has_crossover = true)
    (htype : (signalAt cfg data (n + 1)).crossover_type = some d)
    (hgate : gatePassFlat cfg d = true)
    (hdelay : 2 ≤ cfg.entry_delay) :
    runUpTo cfg data (n + 1) =
      pendState cfg data (n + 1) (n + 1 + cfg.entry_delay - 1) d
        ((signalAt cfg data (n + 1)).crossover_reason) := by
  rw [runUpTo_succ, runUpTo_flat cfg data n hn hq,
    processBar_flat cfg data n current prev hcur hprev, if_pos hfire]
  have hgate' : entryGate cfg (flatState cfg data (n + 1)).just_exited_on_crossover d = true := hgate
  rw [entryPhase_fire_sched cfg data (n + 1) current (signalAt cfg data (n + 1))
    (flatState cfg data (n + 1)) d rfl rfl hfire htype hgate' hdelay]
  rfl

/-- A not-yet-due pending entry survives one bar unchanged. -/
theorem runUpTo_pending_step (cfg : Config) (data : List Row) (m e : Nat) (d : String)
    (reason : Option String) (current prev : Row)
    (hstate : runUpTo cfg data m = pendState cfg data m e d reason)
    (hcur : data.get? (m + 1) = some current) (hprev : data.get? m = some prev)
    (hlt : ¬ e ≤ m + 1) :
    runUpTo cfg data (m + 1) = pendState cfg data (m + 1) e d reason := by
  rw [runUpTo_succ, hstate, processBar_pend cfg data m e d reason current prev hcur hprev]
  rw [pendingEntryPhase_wait cfg data (m + 1) current (pendState cfg data (m + 1) e d reason)
    { execute_at := e, ptype := d, reason := reason } rfl rfl hlt]
  rw [entryPhase_pending cfg data (m + 1) current (signalAt cfg data (m + 1))
    (pendState cfg data (m + 1) e d reason) { execute_at := e, ptype := d, reason := reason } rfl]
  split
  · rfl
  · rfl

/-- A pending entry scheduled from bar `s` persists on every bar before it
comes due. -/
theorem runUpTo_pending_persist (cfg : Config) (data : List Row) (s e : Nat) (d : String)
    (reason : Option String)
    (hstart : runUpTo cfg data s = pendState cfg data s e d reason) :
    ∀ m, s ≤ m → m + 1 ≤ e → m < data.length →
      runUpTo cfg data m = pendState cfg data m e d reason := by
  intro m
  induction m with
  | zero =>
    intro h0 _ _
    rw [Nat.le_zero.mp h0] at hstart
    exact hstart
  | succ j ih =>
    intro hsj hje hjlen
    rcases Nat.lt_or_ge s (j + 1) with hlt | hge
    · have hstep := ih (Nat.lt_succ_iff.mp hlt) (by omega) (by omega)
      obtain ⟨current, hcur⟩ : ∃ r, data.get? (j + 1) = some r := by
        rw [List.get?_eq_get hjlen]
        exact ⟨_, rfl⟩
      obtain ⟨prev, hprev⟩ : ∃ r, data.get? j = some r := by
        rw [List.get?_eq_get (by omega : j < data.length)]
        exact ⟨_, rfl⟩
      exact runUpTo_pending_step cfg data j e d reason current prev hstep hcur hprev (by omega)
    · have heq : s = j + 1 := Nat.le_antisymm hsj hge
      rw [← heq]
      exact hstart

/-- A pending entry that comes due at bar `n+1` fills there: the opened
position carries that bar's date and close, and the scheduled direction. -/
theorem runUpTo_pending_fill (cfg : Config) (data : List Row) (n e : Nat) (d : String)
    (reason : Option String) (current prev : Row)
    (hstate : runUpTo cfg data n = pendState cfg data n e d reason)
    (hcur : data.get? (n + 1) = some current) (hprev : data.get? n = some prev)
    (hdue : e ≤ n + 1) :
    ∃ p, (runUpTo cfg data (n + 1)).position = some p ∧
      p.entry_date = current.date ∧ p.entry_price = current.close ∧
      p.position_type = lowerStr d := by
  rw [runUpTo_succ, hstate, processBar_pend cfg data n e d reason current prev hcur hprev]
  have hopen := pendingEntryPhase_fill cfg data (n + 1) current
    (pendState cfg data (n + 1) e d reason)
    { execute_at := e, ptype := d, reason := reason } rfl rfl hdue
  rw [hopen]
  have hep := entryPhase_some cfg data (n + 1) current (signalAt cfg data (n + 1))
    (openPosition cfg data (n + 1) current
      ({ execute_at := e, ptype := d, reason := reason } : PendingEntry).ptype
      (optRender ({ execute_at := e, ptype := d, reason := reason } : PendingEntry).reason
        ++ " (delayed)")
      (pendState cfg data (n + 1) e d reason)) rfl
  rw [hep]
  rcases hhc : (signalAt cfg data (n + 1)).has_crossover
  · rw [if_neg Bool.false_ne_true]
    exact ⟨_, rfl, rfl, rfl, rfl⟩
  · rw [if_pos rfl]
    exact ⟨_, rfl, rfl, rfl, rfl⟩

theorem signalAt_delay (cfg : Config) (k : Nat) (data : List Row) (i : Nat) :
    signalAt { cfg with entry_delay := k } data i = signalAt cfg data i := rfl

theorem entryFireAt_delay (cfg : Config) (k : Nat) (data : List Row) (i : Nat) :
    entryFireAt { cfg with entry_delay := k } data i = entryFireAt cfg data i := rfl

theorem gatePassFlat_delay (cfg : Config) (k : Nat) (d : String) :
    gatePassFlat { cfg with entry_delay := k } d = gatePassFlat cfg d := rfl

/-- C8 (confirmed): fix a candle series and a configuration, and suppose
the first entry signal that passes the entry gate fires at bar `s` (and
the series extends to bar `s + k - 1`).  With `entry_delay = 1` the entry
fills at bar `s` itself and no position exists on any earlier bar; with
`entry_delay = k ≥ 1` the entry fills exactly `k - 1` bars later, at bar
`s + k - 1`, and no position exists on any earlier bar.  Both fills open a
position in the same direction `d` (the signal's crossover type,
lower-cased). -/
theorem c8_delay_shift (cfg : Config) (data : List Row) (s k : Nat) (d : String)
    (rs re : Row) (hk : 1 ≤ k) (hs : 1 ≤ s) (hlen : s + k - 1 < data.length)
    (hrs : data.get? s = some rs) (hre : data.get? (s + k - 1) = some re)
    (hq : ∀ i, 1 ≤ i → i < s → entryFireAt cfg data i = false)
    (hfire : (signalAt cfg data s).has_crossover = true)
    (htype : (signalAt cfg data s).crossover_type = some d)
    (hgate : gatePassFlat cfg d = true) :
    (∃ p, (runUpTo { cfg with entry_delay := 1 } data s).position = some p ∧
      p.entry_date = rs.date ∧ p.position_type = lowerStr d) ∧
    (∀ m, m < s → (runUpTo { cfg with entry_delay := 1 } data m).position = none) ∧
    (∃ p, (runUpTo { cfg with entry_delay := k } data (s + k - 1)).position = some p ∧
      p.entry_date = re.date ∧ p.position_type = lowerStr d) ∧
    (∀ m, m < s + k - 1 → (runUpTo { cfg with entry_delay := k } data m).position = none) := by
  rcases s with _ | n
  · exact absurd hs (by omega)
  have hn1len : n + 1 < data.length := by omega
  have hnlen : n < data.length := by omega
  obtain ⟨prev, hprev⟩ : ∃ r, data.get? n = some r := by
    rw [List.get?_eq_get hnlen]
    exact ⟨_, rfl⟩
  have hq1 : ∀ i, 1 ≤ i → i ≤ n → entryFireAt { cfg with entry_delay := 1 } data i = false := by
    intro i h1 h2
    rw [entryFireAt_delay]
    exact hq i h1 (by omega)
  have hqk : ∀ i, 1 ≤ i → i ≤ n → entryFireAt { cfg with entry_delay := k } data i = false := by
    intro i h1 h2
    rw [entryFireAt_delay]
    exact hq i h1 (by omega)
  have hfire1 : (signalAt { cfg with entry_delay := 1 } data (n + 1)).has_crossover = true := by
    rw [signalAt_delay]
    exact hfire
  have htype1 : (signalAt { cfg with entry_delay := 1 } data (n + 1)).crossover_type = some d := by
    rw [signalAt_delay]
    exact htype
  have hgate1 : gatePassFlat { cfg with entry_delay := 1 } d = true := by
    rw [gatePassFlat_delay]
    exact hgate
  have hfirek : (signalAt { cfg with entry_delay := k } data (n + 1)).has_crossover = true := by
    rw [signalAt_delay]
    exact hfire
  have htypek : (signalAt { cfg with entry_delay := k } data (n + 1)).crossover_type = some d := by
    rw [signalAt_delay]
    exact htype
  have hgatek : gatePassFlat { cfg with entry_delay := k } d = true := by
    rw [gatePassFlat_delay]
    exact hgate
  have himm := runUpTo_fire_immediate { cfg with entry_delay := 1 } data n rs prev d hrs hprev
    hq1 hnlen hfire1 htype1 hgate1 (le_refl 1)
  have hpart1 : ∃ p, (runUpTo { cfg with entry_delay := 1 } data (n + 1)).position = some p ∧
      p.entry_date = rs.date ∧ p.position_type = lowerStr d := by
    rw [himm]
    exact ⟨_, rfl, rfl, rfl⟩
  have hpart2 : ∀ m, m < n + 1 →
      (runUpTo { cfg with entry_delay := 1 } data m).position = none := by
    intro m hm
    rw [runUpTo_flat { cfg with entry_delay := 1 } data m (by omega)
      (fun i h1 h2 => hq1 i h1 (by omega))]
    rfl
  refine ⟨hpart1, hpart2, ?_, ?_⟩
  · rcases Nat.lt_or_ge k 2 with hklt | hk2
    · have hk1 : k = 1 := by omega
      subst hk1
      have hrse : rs = re := by
        have h := hre
        rw [show n + 1 + 1 - 1 = n + 1 from rfl, hrs] at h
        exact Option.some_inj.mp h
      rw [show n + 1 + 1 - 1 = n + 1 from rfl, ← hrse, himm]
      exact ⟨_, rfl, rfl, rfl⟩
    · have hsched := runUpTo_fire_scheduled { cfg with entry_delay := k } data n rs prev d hrs hprev
        hqk hnlen hfirek htypek hgatek hk2
      rw [show ({ cfg with entry_delay := k } : Config).entry_delay = k from rfl,
        show n + 1 + k - 1 = n + k from by omega] at hsched
      have hpersist := runUpTo_pending_persist { cfg with entry_delay := k } data (n + 1) (n + k) d
        ((signalAt { cfg with entry_delay := k } data (n + 1)).crossover_reason) hsched
      have hstate := hpersist (n + k - 1) (by omega) (by omega) (by omega)
      have hnk : n + k - 1 + 1 = n + k := by omega
      obtain ⟨prevk, hprevk⟩ : ∃ r, data.get? (n + k - 1) = some r := by
        rw [List.get?_eq_get (by omega : n + k - 1 < data.length)]
        exact ⟨_, rfl⟩
      have hcurk : data.get? (n + k - 1 + 1) = some re := by
        rw [hnk]
        rw [show n + k = n + 1 + k - 1 from by omega]
        exact hre
      obtain ⟨p, hp, hd, hpr, hpt⟩ := runUpTo_pending_fill { cfg with entry_delay := k } data
        (n + k - 1) (n + k) d
        ((signalAt { cfg with entry_delay := k } data (n + 1)).crossover_reason)
        re prevk hstate hcurk hprevk (by omega)
      rw [hnk, show n + k = n + 1 + k - 1 from by omega] at hp
      exact ⟨p, hp, hd, hpt⟩
  · intro m hm
    rcases Nat.lt_or_ge m (n + 1) with hms | hms
    · rw [runUpTo_flat { cfg with entry_delay := k } data m (by omega)
        (fun i h1 h2 => hqk i h1 (by omega))]
      rfl
    · have hk2 : 2 ≤ k := by omega
      have hsched := runUpTo_fire_scheduled { cfg with entry_delay := k } data n rs prev d hrs hprev
        hqk hnlen hfirek htypek hgatek hk2
      rw [show ({ cfg with entry_delay := k } : Config).entry_delay = k from rfl,
        show n + 1 + k - 1 = n + k from by omega] at hsched
      have hpersist := runUpTo_pending_persist { cfg with entry_delay := k } data (n + 1) (n + k) d
        ((signalAt { cfg with entry_delay := k } data (n + 1)).crossover_reason) hsched
      rw [hpersist m hms (by omega) (by omega)]
      rfl

/-- Witness for C8: under `cfgB` on the EMA(1/2)-annotated `rowsDelay`
(whose only golden cross is at bar 1), the delay-1 run fills Long at bar 1
and the delay-3 run fills Long at bar 3 = 1 + 3 - 1, with no position on
any earlier bar in either run. -/
theorem c8_delay_shift_witness :
    ∃ rs re,
      (annotateData cfgB rowsDelay).get? 1 = some rs ∧
      (annotateData cfgB rowsDelay).get? (1 + 3 - 1) = some re ∧
      ((∃ p, (runUpTo { cfgB with entry_delay := 1 }
            (annotateData cfgB rowsDelay) 1).position = some p ∧
          p.entry_date = rs.date ∧ p.position_type = lowerStr "Long") ∧
        (∀ m, m < 1 → (runUpTo { cfgB with entry_delay := 1 }
            (annotateData cfgB rowsDelay) m).position = none) ∧
        (∃ p, (runUpTo { cfgB with entry_delay := 3 }
            (annotateData cfgB rowsDelay) (1 + 3 - 1)).position = some p ∧
          p.entry_date = re.date ∧ p.position_type = lowerStr "Long") ∧
        (∀ m, m < 1 + 3 - 1 → (runUpTo { cfgB with entry_delay := 3 }
            (annotateData cfgB rowsDelay) m).position = none)) := by
  obtain ⟨rs, hrs⟩ : ∃ r, (annotateData cfgB rowsDelay).get? 1 = some r :=
    ⟨_, by with_unfolding_all rfl⟩
  obtain ⟨re, hre⟩ : ∃ r, (annotateData cfgB rowsDelay).get? (1 + 3 - 1) = some r :=
    ⟨_, by with_unfolding_all rfl⟩
  refine ⟨rs, re, hrs, hre, ?_⟩
  exact c8_delay_shift cfgB (annotateData cfgB rowsDelay) 1 3 "Long" rs re
    (by omega) (by omega)
    (by
      have h1 := congrArg List.length (annotateData_map_date cfgB rowsDelay)
      simp only [List.length_map] at h1
      rw [show (1 : Nat) + 3 - 1 = 3 from rfl, h1]
      decide)
    hrs hre
    (fun i h1 h2 => absurd h1 (by omega))
    (of_decide_eq_true (by with_unfolding_all rfl))
    (of_decide_eq_true (by with_unfolding_all rfl))
    (of_decide_eq_true (by with_unfolding_all rfl))

end Backtest
